import Mathlib

/-!
Verification of the mcp-debug proxy: a shallow embedding of the
environment builder (`client/envbuilder.go`) and of the dynamic wrapper's
management and tool-call handlers (`integration/dynamic_wrapper.go`),
with theorems settling the frozen claims about the specification.

Go maps are modelled as association lists written through `upsert`
(replace-if-present, append-otherwise); `map[string]T` values coming from
configuration are association lists whose keys are pairwise distinct
(the Go-map invariant), stated as a hypothesis where a theorem needs it.
The parent process environment (`os.Environ()`) is passed explicitly as a
list of already-split `(key, value)` pairs.
-/

set_option maxHeartbeats 1000000

namespace McpDebug

/-! ## Association lists with Go-map (upsert) semantics -/

/-- Write `(k, v)` into an association list with Go-map semantics:
replace the (unique) entry with key `k` when present, append otherwise. -/
def upsert {α : Type} : List (String × α) → String → α → List (String × α)
  | [], k, v => [(k, v)]
  | p :: t, k, v => if p.1 = k then (k, v) :: t else p :: upsert t k v

/-- Association-list lookup (first entry with the given key). -/
def alookup {α : Type} : List (String × α) → String → Option α
  | [], _ => none
  | p :: t, k => if p.1 = k then some p.2 else alookup t k

theorem alookup_upsert {α : Type} (m : List (String × α)) (k k' : String) (v : α) :
    alookup (upsert m k v) k' = if k' = k then some v else alookup m k' := by
  induction m with
  | nil =>
    by_cases h : k' = k <;> simp [upsert, alookup, h]
    · exact fun h' => (h h'.symm).elim
  | cons p t ih =>
    by_cases hpk : p.1 = k
    · by_cases hk : k' = k
      · subst hk; simp [upsert, alookup, hpk]
      · have hk2 : ¬ k = k' := fun h => hk h.symm
        simp [upsert, alookup, hpk, hk, hk2]
    · by_cases hpk' : p.1 = k'
      · have hk : ¬ k' = k := fun h => hpk (h ▸ hpk')
        simp [upsert, alookup, hpk, hpk', hk]
      · simp [upsert, alookup, hpk, hpk', ih]

theorem mem_upsert {α : Type} {m : List (String × α)} {k : String} {v : α}
    {q : String × α} (h : q ∈ upsert m k v) : q = (k, v) ∨ q ∈ m := by
  induction m with
  | nil => simpa [upsert] using h
  | cons p t ih =>
    by_cases hpk : p.1 = k
    · simp only [upsert, if_pos hpk, List.mem_cons] at h
      rcases h with h | h
      · exact Or.inl h
      · exact Or.inr (List.mem_cons_of_mem _ h)
    · simp only [upsert, if_neg hpk, List.mem_cons] at h
      rcases h with h | h
      · exact Or.inr (h ▸ List.mem_cons_self _ _)
      · rcases ih h with h' | h'
        · exact Or.inl h'
        · exact Or.inr (List.mem_cons_of_mem _ h')

theorem keys_upsert_nodup {α : Type} {m : List (String × α)} (k : String) (v : α)
    (h : (m.map Prod.fst).Nodup) : ((upsert m k v).map Prod.fst).Nodup := by
  induction m with
  | nil => simp [upsert]
  | cons p t ih =>
    simp only [List.map_cons, List.nodup_cons] at h
    by_cases hpk : p.1 = k
    · subst hpk
      simpa [upsert, List.nodup_cons] using h
    · have htail := ih h.2
      simp only [upsert, if_neg hpk, List.map_cons, List.nodup_cons]
      refine ⟨?_, htail⟩
      intro hmem
      have : p.1 ∈ (upsert t k v).map Prod.fst := hmem
      rw [List.mem_map] at this
      rcases this with ⟨q, hq, hq1⟩
      rcases mem_upsert hq with rfl | hq'
      · exact hpk hq1.symm
      · exact h.1 (hq1 ▸ List.mem_map_of_mem Prod.fst hq')

/-- In an association list with pairwise-distinct keys, membership of an
entry is the same as `alookup` returning its value. -/
theorem mem_iff_alookup {α : Type} {m : List (String × α)}
    (hm : (m.map Prod.fst).Nodup) (q : String × α) :
    q ∈ m ↔ alookup m q.1 = some q.2 := by
  induction m with
  | nil => simp [alookup]
  | cons p t ih =>
    simp only [List.map_cons, List.nodup_cons] at hm
    constructor
    · intro h
      rcases List.mem_cons.mp h with rfl | h
      · simp [alookup]
      · have : ¬ p.1 = q.1 := by
          intro he
          exact hm.1 (he ▸ List.mem_map_of_mem Prod.fst h)
        simpa [alookup, this] using (ih hm.2).mp h
    · intro h
      by_cases hp : p.1 = q.1
      · simp only [alookup, if_pos hp] at h
        have : q = p := Prod.ext hp.symm (Option.some_injective _ h).symm
        exact this ▸ List.mem_cons_self _ _
      · simp only [alookup, if_neg hp] at h
        exact List.mem_cons_of_mem _ ((ih hm.2).mpr h)

/-- If every entry of `m` satisfies `P` and every step of the fold (at an
element of the folded list) only adds entries satisfying `P`, then every
entry of the fold satisfies `P`. -/
theorem foldl_entry_invariant {α β : Type} {P : String × α → Prop}
    (step : List (String × α) → β → List (String × α))
    (l : List β)
    (hstep : ∀ m, ∀ x ∈ l, ∀ q, (∀ r ∈ m, P r) → q ∈ step m x → P q)
    (m : List (String × α)) (hm : ∀ r ∈ m, P r) :
    ∀ q ∈ l.foldl step m, P q := by
  induction l generalizing m with
  | nil => exact hm
  | cons x t ih =>
    intro q hq
    exact ih (fun m' y hy => hstep m' y (List.mem_cons_of_mem _ hy)) (step m x)
      (fun r hr => hstep m x (List.mem_cons_self _ _) r hm hr) q hq

/-- Generic preservation of a predicate along a left fold. -/
theorem foldl_preserves {α β : Type} (P : α → Prop) (step : α → β → α)
    (h : ∀ m x, P m → P (step m x)) :
    ∀ (l : List β) (m : α), P m → P (l.foldl step m) := by
  intro l
  induction l with
  | nil => exact fun m hm => hm
  | cons x t ih => exact fun m hm => ih (step m x) (h m x hm)

/-! ## The environment builder (`client/envbuilder.go`)

`BuildEnvironment(serverConfig, proxyInherit)` is embedded as a function of
the two configs, the parent environment snapshot (the split entries of
`os.Environ()`), and the `runtime.GOOS == "windows"` flag.
-/

/-- `config.InheritMode` (`config/config.go`). -/
inductive InheritMode
  | inheritNone
  | tier1
  | tier1tier2
  | all
deriving DecidableEq, Repr

/-- `config.InheritConfig`.  The Go field `Prefix` is called `prefixes`
here. -/
structure InheritConfig where
  mode : InheritMode := .tier1
  extra : List String := []
  prefixes : List String := []
  deny : List String := []
  allowDeniedIfExplicit : Bool := false
deriving DecidableEq, Repr

/-- `config.ServerConfig` (fields used by the proxy core; the Go field
`Prefix` is called `pfx` here, `Env` is an association list with the
Go-map invariant of pairwise-distinct keys). -/
structure ServerConfig where
  name : String := ""
  pfx : String := ""
  transport : String := ""
  command : String := ""
  args : List String := []
  env : List (String × String) := []
  inherit : Option InheritConfig := none
  timeout : String := ""
deriving DecidableEq, Repr

/-- `client.Tier1Vars`. -/
def Tier1Vars : List String :=
  ["PATH", "HOME", "USER", "SHELL", "LANG", "LC_ALL", "TZ", "TMPDIR", "TEMP", "TMP"]

/-- `client.Tier2Vars`. -/
def Tier2Vars : List String :=
  ["SSL_CERT_FILE", "SSL_CERT_DIR", "REQUESTS_CA_BUNDLE", "CURL_CA_BUNDLE",
   "NODE_EXTRA_CA_CERTS"]

/-- `client.ImplicitDenylist`. -/
def ImplicitDenylist : List String :=
  ["HTTP_PROXY", "HTTPS_PROXY", "http_proxy", "https_proxy", "NO_PROXY", "no_proxy"]

/-- Go's `strings.ToUpper`, modelled characterwise (`Char.toUpper`
uppercases the ASCII letters; environment variable names are ASCII). -/
def strUpper (s : String) : String := ⟨s.data.map Char.toUpper⟩

/-- `client.normalizeKey`: uppercase on Windows, identity elsewhere. -/
def normalizeKey (k : String) (isWindows : Bool) : String :=
  if isWindows then strUpper k else k

/-- `client.buildDenyMap`: implicit denylist plus server-level plus
proxy-level deny rules, all normalized.  (The Go map of booleans is
modelled as the list of its keys, queried by membership.) -/
def buildDenyMap (sc : ServerConfig) (proxyInherit : Option InheritConfig)
    (w : Bool) : List String :=
  (ImplicitDenylist
      ++ (match sc.inherit with | some ic => ic.deny | none => [])
      ++ (match proxyInherit with | some ic => ic.deny | none => [])).map
    (fun k => normalizeKey k w)

/-- `client.buildParentMap`: normalized-key map of the parent environment
(skipping malformed entries with an empty key; later entries win). -/
def buildParentMap (parentEnv : List (String × String)) (w : Bool) :
    List (String × String) :=
  parentEnv.foldl
    (fun m kv => if kv.1 = "" then m else upsert m (normalizeKey kv.1 w) kv.2) []

/-- A value of the result map of `BuildEnvironment`: the original key
(casing preserved) and the value. -/
structure EnvEntry where
  key : String
  value : String
deriving DecidableEq, Repr

/-- `serverConfig.Inherit != nil && serverConfig.Inherit.AllowDeniedIfExplicit`. -/
def serverAllowFlag (sc : ServerConfig) : Bool :=
  match sc.inherit with
  | some ic => ic.allowDeniedIfExplicit
  | none => false

/-- `proxyInherit != nil && proxyInherit.AllowDeniedIfExplicit`. -/
def proxyAllowFlag (proxyInherit : Option InheritConfig) : Bool :=
  match proxyInherit with
  | some ic => ic.allowDeniedIfExplicit
  | none => false

/-- The `addVar` closure inside `BuildEnvironment`.  The Go chain
`if server-flag {} else if proxy-flag {} else return` followed by the
parent-map lookup is the disjunction of the two flags. -/
def addVar (sc : ServerConfig) (proxyInherit : Option InheritConfig)
    (denySet : List String) (parentMap : List (String × String)) (w : Bool)
    (m : List (String × EnvEntry)) (key : String) (explicitExtra : Bool) :
    List (String × EnvEntry) :=
  if normalizeKey key w ∈ denySet then
    if explicitExtra then
      if serverAllowFlag sc || proxyAllowFlag proxyInherit then
        match alookup parentMap (normalizeKey key w) with
        | some v => upsert m (normalizeKey key w) ⟨key, v⟩
        | none => m
      else m
    else m
  else
    match alookup parentMap (normalizeKey key w) with
    | some v => upsert m (normalizeKey key w) ⟨key, v⟩
    | none => m

/-- Whether a mode enables Tier 2 (`mode == tier1+tier2 || mode == all`). -/
def modeSelectsTier2 : InheritMode → Bool
  | .tier1tier2 => true
  | .all => true
  | _ => false

/-- The `tier2Enabled` computation of `BuildEnvironment` (server level,
then proxy level as fallback — a disjunction). -/
def tier2Enabled (sc : ServerConfig) (proxyInherit : Option InheritConfig) : Bool :=
  (match sc.inherit with | some ic => modeSelectsTier2 ic.mode | none => false)
    || (match proxyInherit with | some ic => modeSelectsTier2 ic.mode | none => false)

/-- Step 4 of `BuildEnvironment`: one iteration of the loop over the
parent map that adds prefix-matched variables.  The Go `break` after the
first matching prefix is behaviour-equivalent to `List.any` because the
loop body does not depend on which prefix matched. -/
def pfxStep (prefixes : List String) (parentEnv : List (String × String))
    (denySet : List String) (w : Bool)
    (m : List (String × EnvEntry)) (kv : String × String) :
    List (String × EnvEntry) :=
  if kv.1 ∈ denySet then m
  else if prefixes.any (fun q => (normalizeKey q w).isPrefixOf kv.1) then
    match parentEnv.find? (fun p => normalizeKey p.1 w == kv.1 && p.2 == kv.2) with
    | some p => if p.1 = "" then m else upsert m kv.1 ⟨p.1, kv.2⟩
    | none => m
  else m

/-- The `extra` list contributed by the server-level inherit config. -/
def serverExtraList (sc : ServerConfig) : List String :=
  match sc.inherit with | some ic => ic.extra | none => []

/-- The `extra` list contributed by the proxy-level inherit config. -/
def proxyExtraList (proxyInherit : Option InheritConfig) : List String :=
  match proxyInherit with | some ic => ic.extra | none => []

/-- The combined name-prefix list (server level, then proxy level). -/
def allPrefixes (sc : ServerConfig) (proxyInherit : Option InheritConfig) :
    List String :=
  (match sc.inherit with | some ic => ic.prefixes | none => [])
    ++ (match proxyInherit with | some ic => ic.prefixes | none => [])

/-- Step 1 of `BuildEnvironment`: Tier 1 baseline variables. -/
def mapTier1 (sc : ServerConfig) (proxyInherit : Option InheritConfig)
    (parentEnv : List (String × String)) (w : Bool) :
    List (String × EnvEntry) :=
  Tier1Vars.foldl
    (fun m k => addVar sc proxyInherit (buildDenyMap sc proxyInherit w)
      (buildParentMap parentEnv w) w m k false) []

/-- Steps 1–2 of `BuildEnvironment`: Tier 1, then Tier 2 when enabled. -/
def mapAfterTiers (sc : ServerConfig) (proxyInherit : Option InheritConfig)
    (parentEnv : List (String × String)) (w : Bool) :
    List (String × EnvEntry) :=
  if tier2Enabled sc proxyInherit then
    Tier2Vars.foldl
      (fun m k => addVar sc proxyInherit (buildDenyMap sc proxyInherit w)
        (buildParentMap parentEnv w) w m k false)
      (mapTier1 sc proxyInherit parentEnv w)
  else mapTier1 sc proxyInherit parentEnv w

/-- Steps 1–3 of `BuildEnvironment`: extras (server level, then proxy
level), marked `explicitExtra`. -/
def mapAfterExtras (sc : ServerConfig) (proxyInherit : Option InheritConfig)
    (parentEnv : List (String × String)) (w : Bool) :
    List (String × EnvEntry) :=
  (proxyExtraList proxyInherit).foldl
    (fun m k => addVar sc proxyInherit (buildDenyMap sc proxyInherit w)
      (buildParentMap parentEnv w) w m k true)
    ((serverExtraList sc).foldl
      (fun m k => addVar sc proxyInherit (buildDenyMap sc proxyInherit w)
        (buildParentMap parentEnv w) w m k true)
      (mapAfterTiers sc proxyInherit parentEnv w))

/-- Steps 1–4 of `BuildEnvironment`: prefix-matched parent variables. -/
def mapAfterPfx (sc : ServerConfig) (proxyInherit : Option InheritConfig)
    (parentEnv : List (String × String)) (w : Bool) :
    List (String × EnvEntry) :=
  (buildParentMap parentEnv w).foldl
    (pfxStep (allPrefixes sc proxyInherit) parentEnv
      (buildDenyMap sc proxyInherit w) w)
    (mapAfterExtras sc proxyInherit parentEnv w)

/-- The result map built by `client.BuildEnvironment` (steps 1–5), keyed by
normalized name; step 5 overlays the spec's `env` overrides
unconditionally.  The final Go step renders it as `KEY=value` strings
(see `BuildEnvironment` below). -/
def buildEnvMap (sc : ServerConfig) (proxyInherit : Option InheritConfig)
    (parentEnv : List (String × String)) (w : Bool) :
    List (String × EnvEntry) :=
  sc.env.foldl (fun m kv => upsert m (normalizeKey kv.1 w) ⟨kv.1, kv.2⟩)
    (mapAfterPfx sc proxyInherit parentEnv w)

/-- `client.BuildEnvironment`: the result map rendered as `KEY=value`
strings (original casing preserved). -/
def BuildEnvironment (sc : ServerConfig) (proxyInherit : Option InheritConfig)
    (parentEnv : List (String × String)) (w : Bool) : List String :=
  (buildEnvMap sc proxyInherit parentEnv w).map
    (fun p => p.2.key ++ "=" ++ p.2.value)

/-! ### The result map is well-formed: one entry per normalized name -/

/-- Well-formedness of the intermediate result map: keys are pairwise
distinct, and each association key is the normalized form of the stored
original key. -/
def GoodMap (w : Bool) (m : List (String × EnvEntry)) : Prop :=
  (m.map Prod.fst).Nodup ∧ ∀ p ∈ m, p.1 = normalizeKey p.2.key w

theorem goodMap_nil (w : Bool) : GoodMap w [] := ⟨List.nodup_nil, by simp⟩

theorem goodMap_upsert {w : Bool} {m : List (String × EnvEntry)}
    {nk : String} {e : EnvEntry} (hm : GoodMap w m)
    (he : nk = normalizeKey e.key w) : GoodMap w (upsert m nk e) := by
  refine ⟨keys_upsert_nodup nk e hm.1, ?_⟩
  intro p hp
  rcases mem_upsert hp with rfl | hp'
  · exact he
  · exact hm.2 p hp'

/-- `addVar` either leaves the map unchanged or upserts the parent value
of the (normalized) key under its normalized name. -/
theorem addVar_eq_or (sc : ServerConfig) (proxyInherit : Option InheritConfig)
    (denySet : List String) (parentMap : List (String × String)) (w : Bool)
    (m : List (String × EnvEntry)) (key : String) (ex : Bool) :
    addVar sc proxyInherit denySet parentMap w m key ex = m ∨
      ∃ v, alookup parentMap (normalizeKey key w) = some v ∧
        addVar sc proxyInherit denySet parentMap w m key ex =
          upsert m (normalizeKey key w) ⟨key, v⟩ := by
  unfold addVar
  cases h : alookup parentMap (normalizeKey key w) with
  | none =>
    split
    · split
      · split
        · exact Or.inl rfl
        · exact Or.inl rfl
      · exact Or.inl rfl
    · exact Or.inl rfl
  | some v =>
    split
    · split
      · split
        · exact Or.inr ⟨v, rfl, rfl⟩
        · exact Or.inl rfl
      · exact Or.inl rfl
    · exact Or.inr ⟨v, rfl, rfl⟩

theorem goodMap_addVar {w : Bool} {m : List (String × EnvEntry)}
    (sc : ServerConfig) (proxyInherit : Option InheritConfig)
    (denySet : List String) (parentMap : List (String × String))
    (key : String) (ex : Bool) (hm : GoodMap w m) :
    GoodMap w (addVar sc proxyInherit denySet parentMap w m key ex) := by
  rcases addVar_eq_or sc proxyInherit denySet parentMap w m key ex with h | ⟨v, _, h⟩
  · rw [h]; exact hm
  · rw [h]; exact goodMap_upsert hm rfl

theorem goodMap_pfxStep {w : Bool} {m : List (String × EnvEntry)}
    (prefixes : List String) (parentEnv : List (String × String))
    (denySet : List String) (kv : String × String) (hm : GoodMap w m) :
    GoodMap w (pfxStep prefixes parentEnv denySet w m kv) := by
  unfold pfxStep
  split
  · exact hm
  · split
    · split
      · next p hp =>
        split
        · exact hm
        · have hfind := List.find?_some hp
          have h1 : normalizeKey p.1 w = kv.1 := by
            have := (Bool.and_eq_true _ _).mp hfind |>.1
            exact eq_of_beq this
          exact goodMap_upsert hm h1.symm
      · exact hm
    · exact hm

theorem goodMap_mapTier1 (sc : ServerConfig) (proxyInherit : Option InheritConfig)
    (parentEnv : List (String × String)) (w : Bool) :
    GoodMap w (mapTier1 sc proxyInherit parentEnv w) :=
  foldl_preserves (GoodMap w) _
    (fun m k hm => goodMap_addVar _ _ _ _ _ _ hm) _ _ (goodMap_nil w)

theorem goodMap_mapAfterTiers (sc : ServerConfig)
    (proxyInherit : Option InheritConfig)
    (parentEnv : List (String × String)) (w : Bool) :
    GoodMap w (mapAfterTiers sc proxyInherit parentEnv w) := by
  unfold mapAfterTiers
  split
  · exact foldl_preserves (GoodMap w) _
      (fun m k hm => goodMap_addVar _ _ _ _ _ _ hm) _ _
      (goodMap_mapTier1 sc proxyInherit parentEnv w)
  · exact goodMap_mapTier1 sc proxyInherit parentEnv w

theorem goodMap_mapAfterExtras (sc : ServerConfig)
    (proxyInherit : Option InheritConfig)
    (parentEnv : List (String × String)) (w : Bool) :
    GoodMap w (mapAfterExtras sc proxyInherit parentEnv w) :=
  foldl_preserves (GoodMap w) _
    (fun m k hm => goodMap_addVar _ _ _ _ _ _ hm) _ _
    (foldl_preserves (GoodMap w) _
      (fun m k hm => goodMap_addVar _ _ _ _ _ _ hm) _ _
      (goodMap_mapAfterTiers sc proxyInherit parentEnv w))

theorem goodMap_mapAfterPfx (sc : ServerConfig)
    (proxyInherit : Option InheritConfig)
    (parentEnv : List (String × String)) (w : Bool) :
    GoodMap w (mapAfterPfx sc proxyInherit parentEnv w) :=
  foldl_preserves (GoodMap w) _
    (fun m kv hm => goodMap_pfxStep _ _ _ _ hm) _ _
    (goodMap_mapAfterExtras sc proxyInherit parentEnv w)

theorem goodMap_buildEnvMap (sc : ServerConfig)
    (proxyInherit : Option InheritConfig)
    (parentEnv : List (String × String)) (w : Bool) :
    GoodMap w (buildEnvMap sc proxyInherit parentEnv w) := by
  unfold buildEnvMap
  exact foldl_preserves (GoodMap w) _
    (fun m kv hm =>
      @goodMap_upsert w m (normalizeKey kv.1 w) ⟨kv.1, kv.2⟩ hm rfl) _ _
    (goodMap_mapAfterPfx sc proxyInherit parentEnv w)

/-- C10: the list returned by `BuildEnvironment` has at most one entry per
variable name, names compared after normalization. -/
theorem buildEnvironment_unique_names (sc : ServerConfig)
    (proxyInherit : Option InheritConfig)
    (parentEnv : List (String × String)) (w : Bool) :
    ((buildEnvMap sc proxyInherit parentEnv w).map
        (fun p => normalizeKey p.2.key w)).Nodup ∧
      BuildEnvironment sc proxyInherit parentEnv w =
        (buildEnvMap sc proxyInherit parentEnv w).map
          (fun p => p.2.key ++ "=" ++ p.2.value) := by
  have hg := goodMap_buildEnvMap sc proxyInherit parentEnv w
  constructor
  · have : (buildEnvMap sc proxyInherit parentEnv w).map
        (fun p => normalizeKey p.2.key w) =
        (buildEnvMap sc proxyInherit parentEnv w).map Prod.fst := by
      apply List.map_congr_left
      intro p hp
      exact (hg.2 p hp).symm
    rw [this]
    exact hg.1
  · rfl

/-! ### Pointwise characterization of the builder stages -/

theorem normalizeKey_false (k : String) : normalizeKey k false = k := rfl

theorem alookup_none_of_not_mem_keys {α : Type} {m : List (String × α)}
    {nk : String} (h : nk ∉ m.map Prod.fst) : alookup m nk = none := by
  induction m with
  | nil => rfl
  | cons p t ih =>
    simp only [List.map_cons, List.mem_cons, not_or] at h
    have : ¬ p.1 = nk := fun he => h.1 he.symm
    simp [alookup, this, ih h.2]

theorem alookup_isSome_upsert {α : Type} {m : List (String × α)}
    {nk : String} (k : String) (v : α) (h : (alookup m nk).isSome) :
    (alookup (upsert m k v) nk).isSome := by
  rw [alookup_upsert]
  by_cases hk : nk = k <;> simp [hk, h]

/-- The guard of `addVar`: a denied name passes only when it comes from an
`extra` list and one of the two `allow_denied_if_explicit` flags is set. -/
def addAllowed (sc : ServerConfig) (proxyInherit : Option InheritConfig)
    (denySet : List String) (w : Bool) (key : String) (ex : Bool) : Bool :=
  if normalizeKey key w ∈ denySet then
    ex && (serverAllowFlag sc || proxyAllowFlag proxyInherit)
  else true

theorem addVar_eq (sc : ServerConfig) (proxyInherit : Option InheritConfig)
    (denySet : List String) (parentMap : List (String × String)) (w : Bool)
    (m : List (String × EnvEntry)) (key : String) (ex : Bool) :
    addVar sc proxyInherit denySet parentMap w m key ex =
      if addAllowed sc proxyInherit denySet w key ex then
        match alookup parentMap (normalizeKey key w) with
        | some v => upsert m (normalizeKey key w) ⟨key, v⟩
        | none => m
      else m := by
  unfold addVar addAllowed
  by_cases hd : normalizeKey key w ∈ denySet
  · cases ex with
    | false => simp [hd]
    | true =>
      by_cases hf : (serverAllowFlag sc || proxyAllowFlag proxyInherit) = true
      · simp [hd, hf]
      · have hf' : (serverAllowFlag sc || proxyAllowFlag proxyInherit) = false := by
          revert hf
          cases serverAllowFlag sc || proxyAllowFlag proxyInherit <;> simp
        simp [hd, hf']
  · simp [hd]

theorem alookup_addVar_ne (sc : ServerConfig) (proxyInherit : Option InheritConfig)
    (denySet : List String) (parentMap : List (String × String)) (w : Bool)
    (m : List (String × EnvEntry)) (key : String) (ex : Bool) {nk : String}
    (h : normalizeKey key w ≠ nk) :
    alookup (addVar sc proxyInherit denySet parentMap w m key ex) nk =
      alookup m nk := by
  rw [addVar_eq]
  split
  · cases halk : alookup parentMap (normalizeKey key w) with
    | none => rfl
    | some v =>
      rw [alookup_upsert]
      have hne : ¬ nk = normalizeKey key w := fun he => h he.symm
      simp [hne]
  · rfl

theorem addVar_denied_blocked (sc : ServerConfig)
    (proxyInherit : Option InheritConfig)
    (denySet : List String) (parentMap : List (String × String)) (w : Bool)
    (m : List (String × EnvEntry)) (key : String) (ex : Bool)
    (h1 : normalizeKey key w ∈ denySet)
    (h2 : (ex && (serverAllowFlag sc || proxyAllowFlag proxyInherit)) = false) :
    addVar sc proxyInherit denySet parentMap w m key ex = m := by
  rw [addVar_eq]
  have : addAllowed sc proxyInherit denySet w key ex = false := by
    simp [addAllowed, h1, h2]
  simp [this]

theorem alookup_addVar_isSome (sc : ServerConfig)
    (proxyInherit : Option InheritConfig)
    (denySet : List String) (parentMap : List (String × String)) (w : Bool)
    (m : List (String × EnvEntry)) (key : String) (ex : Bool) {nk : String}
    (h : (alookup m nk).isSome) :
    (alookup (addVar sc proxyInherit denySet parentMap w m key ex) nk).isSome := by
  rcases addVar_eq_or sc proxyInherit denySet parentMap w m key ex with he | ⟨v, _, he⟩
  · rw [he]; exact h
  · rw [he]; exact alookup_isSome_upsert _ _ h

theorem pfxStep_cases (prefixes : List String) (parentEnv : List (String × String))
    (denySet : List String) (w : Bool)
    (m : List (String × EnvEntry)) (kv : String × String) :
    pfxStep prefixes parentEnv denySet w m kv = m ∨
      (kv.1 ∉ denySet ∧
        prefixes.any (fun q => (normalizeKey q w).isPrefixOf kv.1) = true ∧
        ∃ e, pfxStep prefixes parentEnv denySet w m kv = upsert m kv.1 e) := by
  unfold pfxStep
  by_cases hd : kv.1 ∈ denySet
  · simp [hd]
  · simp only [if_neg hd]
    by_cases hp : prefixes.any (fun q => (normalizeKey q w).isPrefixOf kv.1) = true
    · simp only [if_pos hp]
      cases hf : parentEnv.find?
          (fun p => normalizeKey p.1 w == kv.1 && p.2 == kv.2) with
      | none => exact Or.inl rfl
      | some p =>
        by_cases hp1 : p.1 = ""
        · simp [hp1]
        · simp only [if_neg hp1]
          exact Or.inr ⟨hd, hp, ⟨⟨p.1, kv.2⟩, rfl⟩⟩
    · simp [hp]

theorem pfxStep_nil (parentEnv : List (String × String))
    (denySet : List String) (w : Bool)
    (m : List (String × EnvEntry)) (kv : String × String) :
    pfxStep [] parentEnv denySet w m kv = m := by
  unfold pfxStep
  split
  · rfl
  · simp

theorem foldl_id {α β : Type} (step : α → β → α)
    (h : ∀ m x, step m x = m) : ∀ (l : List β) (m : α), l.foldl step m = m := by
  intro l
  induction l with
  | nil => exact fun m => rfl
  | cons x t ih => intro m; rw [List.foldl_cons, h m x]; exact ih m

theorem mem_of_alookup_eq_some {α : Type} {l : List (String × α)} {k : String}
    {v : α} (h : alookup l k = some v) : (k, v) ∈ l := by
  induction l with
  | nil => simp [alookup] at h
  | cons p t ih =>
    by_cases hp : p.1 = k
    · simp only [alookup, if_pos hp] at h
      have : p = (k, v) := Prod.ext hp (Option.some_injective _ h)
      exact this ▸ List.mem_cons_self _ _
    · simp only [alookup, if_neg hp] at h
      exact List.mem_cons_of_mem _ (ih h)

theorem alookup_isSome_of_mem_keys {α : Type} {l : List (String × α)}
    {k : String} (h : k ∈ l.map Prod.fst) : (alookup l k).isSome := by
  induction l with
  | nil => simp at h
  | cons p t ih =>
    by_cases hp : p.1 = k
    · simp [alookup, hp]
    · simp only [List.map_cons, List.mem_cons] at h
      rcases h with h | h
      · exact (hp h.symm).elim
      · simpa [alookup, hp] using ih h

/-- Tier/extra fold: a denied name whose guard is blocked is never added. -/
theorem alookup_foldAdd_denied (sc : ServerConfig)
    (proxyInherit : Option InheritConfig) (denySet : List String)
    (parentMap : List (String × String)) (w : Bool) (ex : Bool)
    (KS : List String) (nk : String)
    (h1 : nk ∈ denySet)
    (h2 : (ex && (serverAllowFlag sc || proxyAllowFlag proxyInherit)) = false) :
    ∀ m, alookup
        (KS.foldl (fun m k => addVar sc proxyInherit denySet parentMap w m k ex) m)
        nk = alookup m nk := by
  induction KS with
  | nil => exact fun m => rfl
  | cons k t ih =>
    intro m
    rw [List.foldl_cons, ih]
    by_cases hk : normalizeKey k w = nk
    · rw [addVar_denied_blocked sc proxyInherit denySet parentMap w m k ex
        (hk ▸ h1) h2]
    · exact alookup_addVar_ne sc proxyInherit denySet parentMap w m k ex hk

/-- Tier/extra fold preserves presence of a name. -/
theorem alookup_foldAdd_isSome (sc : ServerConfig)
    (proxyInherit : Option InheritConfig) (denySet : List String)
    (parentMap : List (String × String)) (w : Bool) (ex : Bool)
    (KS : List String) (nk : String) :
    ∀ m, (alookup m nk).isSome →
      (alookup
        (KS.foldl (fun m k => addVar sc proxyInherit denySet parentMap w m k ex) m)
        nk).isSome := by
  induction KS with
  | nil => exact fun m h => h
  | cons k t ih =>
    intro m h
    rw [List.foldl_cons]
    exact ih _ (alookup_addVar_isSome sc proxyInherit denySet parentMap w m k ex h)

/-- Extra fold: when one of the two `allow_denied_if_explicit` flags is set,
an extra name present in the parent map ends up present — denied or not. -/
theorem alookup_foldAdd_extra_hit (sc : ServerConfig)
    (proxyInherit : Option InheritConfig) (denySet : List String)
    (parentMap : List (String × String)) (w : Bool)
    (KS : List String) (nk k0 : String)
    (hk0 : k0 ∈ KS) (hnm : normalizeKey k0 w = nk)
    (hflags : (serverAllowFlag sc || proxyAllowFlag proxyInherit) = true)
    (hpm : (alookup parentMap nk).isSome) :
    ∀ m, (alookup
        (KS.foldl (fun m k => addVar sc proxyInherit denySet parentMap w m k true) m)
        nk).isSome := by
  induction KS with
  | nil => simp at hk0
  | cons k t ih =>
    intro m
    rw [List.foldl_cons]
    rcases List.mem_cons.mp hk0 with rfl | hk0t
    · apply alookup_foldAdd_isSome
      rw [addVar_eq]
      have hall : addAllowed sc proxyInherit denySet w k0 true = true := by
        unfold addAllowed
        split
        · simpa using hflags
        · rfl
      rw [if_pos hall, hnm]
      cases hv : alookup parentMap nk with
      | none => rw [hv] at hpm; simp at hpm
      | some v =>
        have := alookup_upsert m nk nk (⟨k0, v⟩ : EnvEntry)
        simp [this]
    · exact ih hk0t _

/-- Prefix fold: a denied name is never added by the prefix stage. -/
theorem alookup_foldPfx_denied (prefixes : List String)
    (parentEnv : List (String × String)) (denySet : List String) (w : Bool)
    (l : List (String × String)) (nk : String) (h1 : nk ∈ denySet) :
    ∀ m, alookup (l.foldl (pfxStep prefixes parentEnv denySet w) m) nk =
      alookup m nk := by
  induction l with
  | nil => exact fun m => rfl
  | cons kv t ih =>
    intro m
    rw [List.foldl_cons, ih]
    rcases pfxStep_cases prefixes parentEnv denySet w m kv with he | ⟨hd, _, e, he⟩
    · rw [he]
    · rw [he, alookup_upsert]
      have : ¬ nk = kv.1 := fun h => hd (h ▸ h1)
      simp [this]

/-- Prefix fold preserves presence of a name. -/
theorem alookup_foldPfx_isSome (prefixes : List String)
    (parentEnv : List (String × String)) (denySet : List String) (w : Bool)
    (l : List (String × String)) (nk : String) :
    ∀ m, (alookup m nk).isSome →
      (alookup (l.foldl (pfxStep prefixes parentEnv denySet w) m) nk).isSome := by
  induction l with
  | nil => exact fun m h => h
  | cons kv t ih =>
    intro m h
    rw [List.foldl_cons]
    rcases pfxStep_cases prefixes parentEnv denySet w m kv with he | ⟨_, _, e, he⟩
    · rw [he]; exact ih m h
    · rw [he]; exact ih _ (alookup_isSome_upsert _ _ h)

/-- Override fold: names whose normalized form is not an override key are
untouched. -/
theorem alookup_foldOverride_skip (w : Bool) (l : List (String × String))
    (nk : String) :
    ∀ m, (∀ kv ∈ l, normalizeKey kv.1 w ≠ nk) →
      alookup
        (l.foldl (fun m kv => upsert m (normalizeKey kv.1 w) (⟨kv.1, kv.2⟩ : EnvEntry)) m) nk =
      alookup m nk := by
  induction l with
  | nil => exact fun m _ => rfl
  | cons kv t ih =>
    intro m h
    rw [List.foldl_cons, ih _ (fun p hp => h p (List.mem_cons_of_mem _ hp)),
      alookup_upsert]
    have : ¬ nk = normalizeKey kv.1 w :=
      fun he => h kv (List.mem_cons_self _ _) he.symm
    simp [this]

/-- Override fold preserves presence of a name. -/
theorem alookup_foldOverride_isSome (w : Bool) (l : List (String × String))
    (nk : String) :
    ∀ m : List (String × EnvEntry), (alookup m nk).isSome →
      (alookup
        (l.foldl (fun m kv => upsert m (normalizeKey kv.1 w) (⟨kv.1, kv.2⟩ : EnvEntry)) m)
        nk).isSome := by
  induction l with
  | nil => exact fun m h => h
  | cons kv t ih =>
    intro m h
    rw [List.foldl_cons]
    exact ih _ (alookup_isSome_upsert _ _ h)

/-- Override fold: when the override keys have pairwise-distinct normalized
forms, each override pair ends up stored verbatim under its normalized key. -/
theorem alookup_foldOverride_mem (w : Bool) (l : List (String × String))
    (k v : String) :
    ∀ m, (l.map (fun kv => normalizeKey kv.1 w)).Nodup → (k, v) ∈ l →
      alookup
        (l.foldl (fun m kv => upsert m (normalizeKey kv.1 w) (⟨kv.1, kv.2⟩ : EnvEntry)) m)
        (normalizeKey k w) = some (⟨k, v⟩ : EnvEntry) := by
  induction l with
  | nil => intro m _ hmem; simp at hmem
  | cons kv t ih =>
    intro m hinj hmem
    simp only [List.map_cons, List.nodup_cons] at hinj
    rw [List.foldl_cons]
    rcases List.mem_cons.mp hmem with he | hmem'
    · have he' : kv = (k, v) := he.symm
      subst he'
      rw [alookup_foldOverride_skip w t _ _ ?hskip, alookup_upsert]
      · simp
      case hskip =>
        intro p hp hn
        apply hinj.1
        rw [← hn]
        exact List.mem_map_of_mem _ hp
    · exact ih _ hinj.2 hmem'

/-- On a non-Windows host, a fold of non-`extra` `addVar` steps is fully
characterized: a name is present exactly when it is listed, not denied,
and present in the parent map, and it is stored with its parent value. -/
theorem alookup_foldAdd_false (sc : ServerConfig)
    (proxyInherit : Option InheritConfig) (denySet : List String)
    (parentMap : List (String × String)) (KS : List String) (nk : String) :
    ∀ m, alookup
        (KS.foldl
          (fun m k => addVar sc proxyInherit denySet parentMap false m k false) m)
        nk =
      if nk ∈ KS ∧ nk ∉ denySet ∧ (alookup parentMap nk).isSome then
        (alookup parentMap nk).map (fun v => (⟨nk, v⟩ : EnvEntry))
      else alookup m nk := by
  induction KS with
  | nil => intro m; simp
  | cons k t ih =>
    intro m
    rw [List.foldl_cons, ih]
    by_cases htk : nk ∈ t ∧ nk ∉ denySet ∧ (alookup parentMap nk).isSome
    · rw [if_pos htk, if_pos ⟨List.mem_cons_of_mem _ htk.1, htk.2⟩]
    · rw [if_neg htk]
      by_cases hk : k = nk
      · subst hk
        by_cases hd : k ∈ denySet
        · rw [addVar_denied_blocked sc proxyInherit denySet parentMap false m k false
            (by simpa [normalizeKey_false] using hd) (by simp)]
          exact (if_neg (fun hc => hc.2.1 hd)).symm
        · cases hpm : alookup parentMap k with
          | none =>
            have hv : addVar sc proxyInherit denySet parentMap false m k false = m := by
              rw [addVar_eq]
              simp [addAllowed, normalizeKey_false, hd, hpm]
            rw [hv]
            exact (if_neg (fun hc => by simp at hc)).symm
          | some v =>
            have hv : addVar sc proxyInherit denySet parentMap false m k false =
                upsert m k (⟨k, v⟩ : EnvEntry) := by
              rw [addVar_eq]
              simp [addAllowed, normalizeKey_false, hd, hpm]
            rw [hv, alookup_upsert, if_pos rfl,
              if_pos ⟨List.mem_cons_self _ _, hd, by simp [hpm]⟩]
            rfl
      · rw [alookup_addVar_ne sc proxyInherit denySet parentMap false m k false
          (by simpa [normalizeKey_false] using hk)]
        refine (if_neg (fun hc => htk ⟨?_, hc.2⟩)).symm
        rcases List.mem_cons.mp hc.1 with h | h
        · exact (hk h.symm).elim
        · exact h

theorem mapAfterTiers_no2 {sc : ServerConfig} {proxyInherit : Option InheritConfig}
    (parentEnv : List (String × String)) (w : Bool)
    (h : tier2Enabled sc proxyInherit = false) :
    mapAfterTiers sc proxyInherit parentEnv w = mapTier1 sc proxyInherit parentEnv w := by
  simp [mapAfterTiers, h]

theorem mapAfterExtras_nil {sc : ServerConfig} {proxyInherit : Option InheritConfig}
    (parentEnv : List (String × String)) (w : Bool)
    (h1 : serverExtraList sc = []) (h2 : proxyExtraList proxyInherit = []) :
    mapAfterExtras sc proxyInherit parentEnv w =
      mapAfterTiers sc proxyInherit parentEnv w := by
  unfold mapAfterExtras
  rw [h1, h2]
  rfl

theorem mapAfterPfx_nil {sc : ServerConfig} {proxyInherit : Option InheritConfig}
    (parentEnv : List (String × String)) (w : Bool)
    (h : allPrefixes sc proxyInherit = []) :
    mapAfterPfx sc proxyInherit parentEnv w =
      mapAfterExtras sc proxyInherit parentEnv w := by
  unfold mapAfterPfx
  rw [h]
  exact foldl_id _ (fun m kv => pfxStep_nil parentEnv _ w m kv) _ _

/-- On a non-Windows host with pairwise-distinct override keys, the
override overlay is fully characterized: an override key maps to its
override value, all other names fall through to the underlying map. -/
theorem alookup_foldOverride_false (l : List (String × String)) (nk : String) :
    ∀ m, (l.map Prod.fst).Nodup →
      alookup
        (l.foldl (fun m kv => upsert m (normalizeKey kv.1 false) (⟨kv.1, kv.2⟩ : EnvEntry)) m)
        nk =
      match alookup l nk with
      | some v => some (⟨nk, v⟩ : EnvEntry)
      | none => alookup m nk := by
  induction l with
  | nil => intro m _; rfl
  | cons p t ih =>
    intro m hinj
    simp only [List.map_cons, List.nodup_cons] at hinj
    rw [List.foldl_cons, ih _ hinj.2]
    by_cases hp : p.1 = nk
    · have ht : alookup t nk = none :=
        alookup_none_of_not_mem_keys (hp ▸ hinj.1)
      rw [ht]
      show alookup (upsert m (normalizeKey p.1 false) ⟨p.1, p.2⟩) nk =
        match alookup (p :: t) nk with
        | some v => some (⟨nk, v⟩ : EnvEntry)
        | none => alookup m nk
      rw [alookup_upsert]
      simp [alookup, hp, normalizeKey_false]
    · have h1 : alookup (p :: t) nk = alookup t nk := by simp [alookup, hp]
      rw [h1]
      cases h2 : alookup t nk with
      | some v => rfl
      | none =>
        show alookup (upsert m (normalizeKey p.1 false) ⟨p.1, p.2⟩) nk = alookup m nk
        rw [alookup_upsert]
        have : ¬ nk = normalizeKey p.1 false := by
          simpa [normalizeKey_false] using fun he => hp he.symm
        simp [this]

/-- C5: for a server config with `inherit.mode = tier1`, empty `extra`,
empty `prefix` and no proxy-level inherit config (on a case-sensitive
host), the built environment consists exactly of the Tier 1 variables
present in the parent environment and not in the combined deny set (with
their parent values), plus the `env` overrides verbatim; nothing else. -/
theorem buildEnvironment_tier1_exact (sc : ServerConfig) (ic : InheritConfig)
    (parentEnv : List (String × String))
    (hic : sc.inherit = some ic) (hmode : ic.mode = .tier1)
    (hextra : ic.extra = []) (hpfx : ic.prefixes = [])
    (henv : (sc.env.map Prod.fst).Nodup) :
    ∀ s, s ∈ BuildEnvironment sc none parentEnv false ↔
      ∃ k v, s = k ++ "=" ++ v ∧
        ((k, v) ∈ sc.env ∨
          (k ∈ Tier1Vars ∧ k ∉ buildDenyMap sc none false ∧
            alookup (buildParentMap parentEnv false) k = some v ∧
            k ∉ sc.env.map Prod.fst)) := by
  have ht2 : tier2Enabled sc none = false := by
    simp [tier2Enabled, hic, hmode, modeSelectsTier2]
  have hsx : serverExtraList sc = [] := by simp [serverExtraList, hic, hextra]
  have hpx : proxyExtraList (none : Option InheritConfig) = [] := rfl
  have hap : allPrefixes sc none = [] := by simp [allPrefixes, hic, hpfx]
  have hbase : ∀ nk, alookup (mapAfterPfx sc none parentEnv false) nk =
      if nk ∈ Tier1Vars ∧ nk ∉ buildDenyMap sc none false ∧
          (alookup (buildParentMap parentEnv false) nk).isSome then
        (alookup (buildParentMap parentEnv false) nk).map
          (fun v => (⟨nk, v⟩ : EnvEntry))
      else none := by
    intro nk
    rw [mapAfterPfx_nil parentEnv false hap, mapAfterExtras_nil parentEnv false hsx hpx,
      mapAfterTiers_no2 parentEnv false ht2]
    unfold mapTier1
    rw [alookup_foldAdd_false]
    rfl
  have hfull : ∀ nk, alookup (buildEnvMap sc none parentEnv false) nk =
      match alookup sc.env nk with
      | some v => some (⟨nk, v⟩ : EnvEntry)
      | none =>
        if nk ∈ Tier1Vars ∧ nk ∉ buildDenyMap sc none false ∧
            (alookup (buildParentMap parentEnv false) nk).isSome then
          (alookup (buildParentMap parentEnv false) nk).map
            (fun v => (⟨nk, v⟩ : EnvEntry))
        else none := by
    intro nk
    unfold buildEnvMap
    rw [alookup_foldOverride_false sc.env nk _ henv]
    cases alookup sc.env nk with
    | some v => rfl
    | none => exact hbase nk
  have hgood := goodMap_buildEnvMap sc none parentEnv false
  intro s
  constructor
  · intro hs
    obtain ⟨p, hp, rfl⟩ := List.mem_map.mp hs
    have hl := (mem_iff_alookup hgood.1 p).mp hp
    rw [hfull] at hl
    refine ⟨p.2.key, p.2.value, rfl, ?_⟩
    cases h0 : alookup sc.env p.1 with
    | some v =>
      rw [h0] at hl
      have hv : p.2 = (⟨p.1, v⟩ : EnvEntry) := (Option.some_injective _ hl).symm
      left
      have := mem_of_alookup_eq_some h0
      rw [hv]
      exact this
    | none =>
      rw [h0] at hl
      right
      by_cases hc : p.1 ∈ Tier1Vars ∧ p.1 ∉ buildDenyMap sc none false ∧
          (alookup (buildParentMap parentEnv false) p.1).isSome
      · rw [if_pos hc] at hl
        cases hv : alookup (buildParentMap parentEnv false) p.1 with
        | none => rw [hv] at hl; simp at hl
        | some v =>
          rw [hv] at hl
          have hp2 : p.2 = (⟨p.1, v⟩ : EnvEntry) := by
            simpa using (Option.some_injective _ (by simpa using hl)).symm
          have hkeys : p.1 ∉ sc.env.map Prod.fst := by
            intro hmem
            have := alookup_isSome_of_mem_keys hmem
            rw [h0] at this
            simp at this
          rw [hp2]
          exact ⟨hc.1, hc.2.1, hv, hkeys⟩
      · rw [if_neg hc] at hl
        simp at hl
  · rintro ⟨k, v, rfl, hcase⟩
    have hkv : alookup (buildEnvMap sc none parentEnv false) k =
        some (⟨k, v⟩ : EnvEntry) := by
      rw [hfull]
      rcases hcase with hmem | ⟨h1, h2, h3, h4⟩
      · rw [(mem_iff_alookup henv (k, v)).mp hmem]
      · rw [alookup_none_of_not_mem_keys h4, if_pos ⟨h1, h2, by simp [h3]⟩, h3]
        rfl
    have hmem : (k, (⟨k, v⟩ : EnvEntry)) ∈ buildEnvMap sc none parentEnv false :=
      (mem_iff_alookup hgood.1 (k, ⟨k, v⟩)).mpr hkv
    exact List.mem_map_of_mem _ hmem

theorem exists_entry_iff_isSome {α : Type} (m : List (String × α)) (nk : String) :
    (∃ p ∈ m, p.1 = nk) ↔ (alookup m nk).isSome := by
  constructor
  · rintro ⟨p, hp, rfl⟩
    exact alookup_isSome_of_mem_keys (List.mem_map_of_mem Prod.fst hp)
  · intro h
    cases hv : alookup m nk with
    | none => rw [hv] at h; simp at h
    | some v => exact ⟨(nk, v), mem_of_alookup_eq_some hv, rfl⟩

/-- A denied name that no override mentions is absent from the result map
whenever neither level's `allow_denied_if_explicit` flag is set. -/
theorem alookup_buildEnvMap_denied_none (sc : ServerConfig)
    (proxyInherit : Option InheritConfig)
    (parentEnv : List (String × String)) (w : Bool) (nk : String)
    (hd : nk ∈ buildDenyMap sc proxyInherit w)
    (hflags : (serverAllowFlag sc || proxyAllowFlag proxyInherit) = false)
    (hnov : ∀ kv ∈ sc.env, normalizeKey kv.1 w ≠ nk) :
    alookup (buildEnvMap sc proxyInherit parentEnv w) nk = none := by
  have h1 : alookup (mapTier1 sc proxyInherit parentEnv w) nk = none := by
    unfold mapTier1
    rw [alookup_foldAdd_denied sc proxyInherit _ _ w false _ nk hd (by simp)]
    rfl
  have h2 : alookup (mapAfterTiers sc proxyInherit parentEnv w) nk = none := by
    unfold mapAfterTiers
    split
    · rw [alookup_foldAdd_denied sc proxyInherit _ _ w false _ nk hd (by simp)]
      exact h1
    · exact h1
  have h3 : alookup (mapAfterExtras sc proxyInherit parentEnv w) nk = none := by
    unfold mapAfterExtras
    rw [alookup_foldAdd_denied sc proxyInherit _ _ w true _ nk hd (by simp [hflags]),
      alookup_foldAdd_denied sc proxyInherit _ _ w true _ nk hd (by simp [hflags])]
    exact h2
  have h4 : alookup (mapAfterPfx sc proxyInherit parentEnv w) nk = none := by
    unfold mapAfterPfx
    rw [alookup_foldPfx_denied _ _ _ w _ nk hd]
    exact h3
  unfold buildEnvMap
  rw [alookup_foldOverride_skip w sc.env nk _ hnov]
  exact h4

/-- When either level's `allow_denied_if_explicit` flag is set, an `extra`
name (from either list) present in the parent map ends up in the result
map — denied or not. -/
theorem alookup_buildEnvMap_extra_hit (sc : ServerConfig)
    (proxyInherit : Option InheritConfig)
    (parentEnv : List (String × String)) (w : Bool) (nk k0 : String)
    (hk0 : k0 ∈ serverExtraList sc ++ proxyExtraList proxyInherit)
    (hnm : normalizeKey k0 w = nk)
    (hflags : (serverAllowFlag sc || proxyAllowFlag proxyInherit) = true)
    (hpm : (alookup (buildParentMap parentEnv w) nk).isSome) :
    (alookup (buildEnvMap sc proxyInherit parentEnv w) nk).isSome := by
  have h3 : (alookup (mapAfterExtras sc proxyInherit parentEnv w) nk).isSome := by
    unfold mapAfterExtras
    rcases List.mem_append.mp hk0 with hs | hp
    · apply alookup_foldAdd_isSome
      exact alookup_foldAdd_extra_hit sc proxyInherit _ _ w _ nk k0 hs hnm hflags hpm _
    · exact alookup_foldAdd_extra_hit sc proxyInherit _ _ w _ nk k0 hp hnm hflags hpm _
  have h4 : (alookup (mapAfterPfx sc proxyInherit parentEnv w) nk).isSome := by
    unfold mapAfterPfx
    exact alookup_foldPfx_isSome _ _ _ w _ nk _ h3
  unfold buildEnvMap
  exact alookup_foldOverride_isSome w sc.env nk _ h4

/-- A server config with `X` in both `extra` and `deny`, and the
`allow_denied_if_explicit` flag NOT set at the server level. -/
def c3ServerCfg : ServerConfig :=
  { inherit := some { mode := .tier1, extra := ["X"], deny := ["X"] } }

/-- A proxy-level inherit config contributing no `extra` names but with
`allow_denied_if_explicit` set. -/
def c3ProxyCfg : Option InheritConfig :=
  some { mode := .tier1, allowDeniedIfExplicit := true }

/-- C3 counterexample: the name `X` comes only from the server-level
`extra` list, whose level has `allow_denied_if_explicit = false`; the flag
is set only at the proxy level (which contributed no `extra`).  The claim
says `X` must be excluded; `BuildEnvironment` includes it. -/
theorem envExtra_deny_crossLevel_counterexample :
    serverAllowFlag c3ServerCfg = false ∧
    "X" ∈ serverExtraList c3ServerCfg ∧
    proxyExtraList c3ProxyCfg = [] ∧
    "X" ∈ buildDenyMap c3ServerCfg c3ProxyCfg false ∧
    BuildEnvironment c3ServerCfg c3ProxyCfg [("X", "v")] false = ["X=v"] := by
  refine ⟨rfl, by simp [serverExtraList, c3ServerCfg], rfl, by decide, by decide⟩

/-- C3 amended: for a name listed in an inherit `extra` list (either
level), whose value exists in the parent environment and which is in the
combined deny set and not named by any `env` override, the name is
included in the result map if and only if `allow_denied_if_explicit` is
true at the server level OR at the proxy level: either level's flag admits
denied extras contributed by either list. -/
theorem envExtra_denied_included_iff_either_flag (sc : ServerConfig)
    (proxyInherit : Option InheritConfig)
    (parentEnv : List (String × String)) (w : Bool) (nk k0 : String)
    (hk0 : k0 ∈ serverExtraList sc ++ proxyExtraList proxyInherit)
    (hnm : normalizeKey k0 w = nk)
    (hd : nk ∈ buildDenyMap sc proxyInherit w)
    (hpm : (alookup (buildParentMap parentEnv w) nk).isSome)
    (hnov : ∀ kv ∈ sc.env, normalizeKey kv.1 w ≠ nk) :
    ((∃ p ∈ buildEnvMap sc proxyInherit parentEnv w, p.1 = nk) ↔
      (serverAllowFlag sc || proxyAllowFlag proxyInherit) = true) := by
  rw [exists_entry_iff_isSome]
  constructor
  · intro h
    by_contra hf
    have hflags : (serverAllowFlag sc || proxyAllowFlag proxyInherit) = false := by
      revert hf
      cases serverAllowFlag sc || proxyAllowFlag proxyInherit <;> simp
    rw [alookup_buildEnvMap_denied_none sc proxyInherit parentEnv w nk hd hflags hnov] at h
    simp at h
  · intro hflags
    exact alookup_buildEnvMap_extra_hit sc proxyInherit parentEnv w nk k0 hk0 hnm
      hflags hpm

/-- Witness for the amended C3 theorem at the counterexample scenario. -/
theorem envExtra_denied_included_iff_either_flag_witness :
    (∃ p ∈ buildEnvMap c3ServerCfg c3ProxyCfg [("X", "v")] false, p.1 = "X") ↔
      (serverAllowFlag c3ServerCfg || proxyAllowFlag c3ProxyCfg) = true :=
  envExtra_denied_included_iff_either_flag c3ServerCfg c3ProxyCfg [("X", "v")]
    false "X" "X" (by simp [serverExtraList, proxyExtraList, c3ServerCfg, c3ProxyCfg])
    rfl (by decide) (by decide) (by simp [c3ServerCfg])

/-- A server config whose `env` override map has two distinct keys that
collide after Windows normalization. -/
def c4ServerCfg : ServerConfig :=
  { env := [("Path", "a"), ("PATH", "b")] }

/-- C4 counterexample: on Windows, two override keys differing only in
case share one normalized slot, so the pair `Path=a` does not appear in
the output even though it is in the spec's `env` map. -/
theorem envOverride_windows_counterexample :
    ("Path", "a") ∈ c4ServerCfg.env ∧
    BuildEnvironment c4ServerCfg none [] true = ["PATH=b"] ∧
    "Path" ++ "=" ++ "a" ∉ BuildEnvironment c4ServerCfg none [] true := by
  refine ⟨by decide, by decide, by decide⟩

/-- C4 amended: provided no two override keys share a normalized name
(automatic on non-Windows hosts, where normalization is the identity and
Go-map keys are distinct), every `env` override appears verbatim as
`KEY=value` in the output, regardless of deny rules, and the final binding
of its normalized name is exactly the override. -/
theorem envOverride_verbatim (sc : ServerConfig)
    (proxyInherit : Option InheritConfig)
    (parentEnv : List (String × String)) (w : Bool)
    (hinj : (sc.env.map (fun kv => normalizeKey kv.1 w)).Nodup) :
    ∀ k v, (k, v) ∈ sc.env →
      alookup (buildEnvMap sc proxyInherit parentEnv w) (normalizeKey k w) =
        some (⟨k, v⟩ : EnvEntry) ∧
      (k ++ "=" ++ v) ∈ BuildEnvironment sc proxyInherit parentEnv w := by
  intro k v hmem
  have h1 : alookup (buildEnvMap sc proxyInherit parentEnv w) (normalizeKey k w) =
      some (⟨k, v⟩ : EnvEntry) := by
    unfold buildEnvMap
    exact alookup_foldOverride_mem w sc.env k v _ hinj hmem
  refine ⟨h1, ?_⟩
  have hgood := goodMap_buildEnvMap sc proxyInherit parentEnv w
  have hm : (normalizeKey k w, (⟨k, v⟩ : EnvEntry)) ∈
      buildEnvMap sc proxyInherit parentEnv w :=
    (mem_iff_alookup hgood.1 _).mpr h1
  exact List.mem_map_of_mem _ hm

/-- Witness for the amended C4 theorem on a concrete config. -/
theorem envOverride_verbatim_witness :
    alookup (buildEnvMap { env := [("A", "1")] } none [] false)
        (normalizeKey "A" false) = some (⟨"A", "1"⟩ : EnvEntry) ∧
      ("A" ++ "=" ++ "1") ∈ BuildEnvironment { env := [("A", "1")] } none [] false :=
  envOverride_verbatim { env := [("A", "1")] } none [] false (by decide)
    "A" "1" (by decide)

/-- A server config for the C5 witness: tier1 mode, one override. -/
def c5ServerCfg : ServerConfig :=
  { inherit := some { mode := .tier1 }, env := [("CUSTOM", "value")] }

/-- A parent environment for the C5 witness. -/
def c5ParentEnv : List (String × String) := [("HOME", "/h"), ("SECRET", "s")]

/-- Witness for C5 on a concrete parent environment and config. -/
theorem buildEnvironment_tier1_exact_witness :
    "HOME=/h" ∈ BuildEnvironment c5ServerCfg none c5ParentEnv false ↔
      ∃ k v, "HOME=/h" = k ++ "=" ++ v ∧
        ((k, v) ∈ c5ServerCfg.env ∨
          (k ∈ Tier1Vars ∧ k ∉ buildDenyMap c5ServerCfg none false ∧
            alookup (buildParentMap c5ParentEnv false) k = some v ∧
            k ∉ c5ServerCfg.env.map Prod.fst)) :=
  buildEnvironment_tier1_exact c5ServerCfg { mode := .tier1 } c5ParentEnv
    rfl rfl rfl rfl (by decide) "HOME=/h"

/-- Every entry of the result map originates from Tier 1, Tier 2, an
`extra` list, a prefix match, or an `env` override: the builder never
copies an arbitrary parent variable. -/
theorem buildEnvMap_provenance (sc : ServerConfig)
    (proxyInherit : Option InheritConfig)
    (parentEnv : List (String × String)) (w : Bool) :
    ∀ p ∈ buildEnvMap sc proxyInherit parentEnv w,
      p.2.key ∈ Tier1Vars ∨ p.2.key ∈ Tier2Vars ∨
      p.2.key ∈ serverExtraList sc ++ proxyExtraList proxyInherit ∨
      (allPrefixes sc proxyInherit).any
        (fun q => (normalizeKey q w).isPrefixOf p.1) = true ∨
      (p.2.key, p.2.value) ∈ sc.env := by
  have haddstep : ∀ (KS : List String) (ds : List String)
      (pm : List (String × String)) (ex : Bool)
      (hK : ∀ k ∈ KS,
        k ∈ Tier1Vars ∨ k ∈ Tier2Vars ∨
          k ∈ serverExtraList sc ++ proxyExtraList proxyInherit),
      ∀ m, ∀ x ∈ KS, ∀ q,
        (∀ r ∈ m,
          r.2.key ∈ Tier1Vars ∨ r.2.key ∈ Tier2Vars ∨
          r.2.key ∈ serverExtraList sc ++ proxyExtraList proxyInherit ∨
          (allPrefixes sc proxyInherit).any
            (fun q => (normalizeKey q w).isPrefixOf r.1) = true ∨
          (r.2.key, r.2.value) ∈ sc.env) →
        q ∈ addVar sc proxyInherit ds pm w m x ex →
        q.2.key ∈ Tier1Vars ∨ q.2.key ∈ Tier2Vars ∨
        q.2.key ∈ serverExtraList sc ++ proxyExtraList proxyInherit ∨
        (allPrefixes sc proxyInherit).any
          (fun r => (normalizeKey r w).isPrefixOf q.1) = true ∨
        (q.2.key, q.2.value) ∈ sc.env := by
    intro KS ds pm ex hK m x hx q hm hq
    rcases addVar_eq_or sc proxyInherit ds pm w m x ex with he | ⟨v, _, he⟩
    · rw [he] at hq; exact hm q hq
    · rw [he] at hq
      rcases mem_upsert hq with rfl | hq'
      · rcases hK x hx with h | h | h
        · exact Or.inl h
        · exact Or.inr (Or.inl h)
        · exact Or.inr (Or.inr (Or.inl h))
      · exact hm q hq'
  have h1 : ∀ p ∈ mapTier1 sc proxyInherit parentEnv w,
      p.2.key ∈ Tier1Vars ∨ p.2.key ∈ Tier2Vars ∨
      p.2.key ∈ serverExtraList sc ++ proxyExtraList proxyInherit ∨
      (allPrefixes sc proxyInherit).any
        (fun q => (normalizeKey q w).isPrefixOf p.1) = true ∨
      (p.2.key, p.2.value) ∈ sc.env := by
    unfold mapTier1
    exact foldl_entry_invariant _ Tier1Vars
      (haddstep Tier1Vars _ _ false (fun k hk => Or.inl hk)) _ (by simp)
  have h2 : ∀ p ∈ mapAfterTiers sc proxyInherit parentEnv w,
      p.2.key ∈ Tier1Vars ∨ p.2.key ∈ Tier2Vars ∨
      p.2.key ∈ serverExtraList sc ++ proxyExtraList proxyInherit ∨
      (allPrefixes sc proxyInherit).any
        (fun q => (normalizeKey q w).isPrefixOf p.1) = true ∨
      (p.2.key, p.2.value) ∈ sc.env := by
    unfold mapAfterTiers
    split
    · exact foldl_entry_invariant _ Tier2Vars
        (haddstep Tier2Vars _ _ false (fun k hk => Or.inr (Or.inl hk))) _ h1
    · exact h1
  have h3 : ∀ p ∈ mapAfterExtras sc proxyInherit parentEnv w,
      p.2.key ∈ Tier1Vars ∨ p.2.key ∈ Tier2Vars ∨
      p.2.key ∈ serverExtraList sc ++ proxyExtraList proxyInherit ∨
      (allPrefixes sc proxyInherit).any
        (fun q => (normalizeKey q w).isPrefixOf p.1) = true ∨
      (p.2.key, p.2.value) ∈ sc.env := by
    unfold mapAfterExtras
    exact foldl_entry_invariant _ (proxyExtraList proxyInherit)
      (haddstep (proxyExtraList proxyInherit) _ _ true
        (fun k hk => Or.inr (Or.inr (List.mem_append.mpr (Or.inr hk))))) _
      (foldl_entry_invariant _ (serverExtraList sc)
        (haddstep (serverExtraList sc) _ _ true
          (fun k hk => Or.inr (Or.inr (List.mem_append.mpr (Or.inl hk))))) _ h2)
  have h4 : ∀ p ∈ mapAfterPfx sc proxyInherit parentEnv w,
      p.2.key ∈ Tier1Vars ∨ p.2.key ∈ Tier2Vars ∨
      p.2.key ∈ serverExtraList sc ++ proxyExtraList proxyInherit ∨
      (allPrefixes sc proxyInherit).any
        (fun q => (normalizeKey q w).isPrefixOf p.1) = true ∨
      (p.2.key, p.2.value) ∈ sc.env := by
    unfold mapAfterPfx
    refine foldl_entry_invariant _ (buildParentMap parentEnv w) ?_ _ h3
    intro m kv hkv q hm hq
    rcases pfxStep_cases (allPrefixes sc proxyInherit) parentEnv
        (buildDenyMap sc proxyInherit w) w m kv with he | ⟨_, hmatch, e, he⟩
    · rw [he] at hq; exact hm q hq
    · rw [he] at hq
      rcases mem_upsert hq with rfl | hq'
      · exact Or.inr (Or.inr (Or.inr (Or.inl hmatch)))
      · exact hm q hq'
  unfold buildEnvMap
  refine foldl_entry_invariant _ sc.env ?_ _ h4
  intro m kv hkv q hm hq
  rcases mem_upsert hq with rfl | hq'
  · exact Or.inr (Or.inr (Or.inr (Or.inr hkv)))
  · exact hm q hq'

/-- C6: `mode = none` is an alias of `mode = tier1` and `mode = all` an
alias of `mode = tier1+tier2`; in particular under `mode = all` every
entry of the result map comes from Tier 1, Tier 2, an `extra` list, a
prefix match, or an `env` override — never an arbitrary parent variable. -/
theorem inheritMode_aliases (sc : ServerConfig) (ic : InheritConfig)
    (proxyInherit : Option InheritConfig)
    (parentEnv : List (String × String)) (w : Bool) :
    (BuildEnvironment { sc with inherit := some { ic with mode := .inheritNone } }
        proxyInherit parentEnv w =
      BuildEnvironment { sc with inherit := some { ic with mode := .tier1 } }
        proxyInherit parentEnv w) ∧
    (BuildEnvironment { sc with inherit := some { ic with mode := .all } }
        proxyInherit parentEnv w =
      BuildEnvironment { sc with inherit := some { ic with mode := .tier1tier2 } }
        proxyInherit parentEnv w) ∧
    (∀ p ∈ buildEnvMap { sc with inherit := some { ic with mode := .all } }
        proxyInherit parentEnv w,
      p.2.key ∈ Tier1Vars ∨ p.2.key ∈ Tier2Vars ∨
      p.2.key ∈ serverExtraList { sc with inherit := some { ic with mode := .all } }
        ++ proxyExtraList proxyInherit ∨
      (allPrefixes { sc with inherit := some { ic with mode := .all } }
        proxyInherit).any (fun q => (normalizeKey q w).isPrefixOf p.1) = true ∨
      (p.2.key, p.2.value) ∈ sc.env) :=
  ⟨rfl, rfl, buildEnvMap_provenance _ proxyInherit parentEnv w⟩

/-! ## The dynamic wrapper (`integration/dynamic_wrapper.go`)

The wrapper's mutable state (upstream table, registry, proxy client list,
recording flags) is made explicit; `client.MCPClient` values are numbered
by spawn order (`nextClientId`), and closing a client records its number
in `closedClients`.  Child-process interactions (`Connect`, `Initialize`,
`ListTools`) are an explicit `SpawnOutcome`, and `CallTool` on client `c`
is an explicit function of `c`.  Each Go handler passes every one of its
return values through `addRecordingMetadata`; this is modelled by
composing the handler's core with `addRecordingMetadata` once.
-/

/-- An MCP tool-call result: the text content items and the `IsError`
flag. -/
structure CallToolResult where
  content : List String
  isError : Bool
deriving DecidableEq, Repr

/-- `mcp.NewToolResultError`. -/
def mkError (msg : String) : CallToolResult := ⟨[msg], true⟩

/-- `mcp.NewToolResultText`. -/
def mkText (msg : String) : CallToolResult := ⟨[msg], false⟩

/-- A tool advertised by an upstream (an entry of the `tools/list`
response). -/
structure ToolInfo where
  name : String
  description : String := ""
deriving DecidableEq, Repr

/-- `integration.DynamicServerInfo`: the runtime record of one upstream. -/
structure DynamicServerInfo where
  name : String := ""
  clientId : Option Nat := none
  tools : List String := []
  cfg : ServerConfig := {}
  isConnected : Bool := false
  errorMessage : String := ""
deriving DecidableEq, Repr

/-- The wrapper state: the upstream table (`dynamicServers`), the tool
registry (prefixed name ↦ client), the proxy server's client list
(server name ↦ client), the spawn counter, the closed clients, and the
recording flags. -/
structure WrapperState where
  dynamicServers : List (String × DynamicServerInfo) := []
  registry : List (String × Nat) := []
  proxyClients : List (String × Nat) := []
  nextClientId : Nat := 0
  closedClients : List Nat := []
  recordEnabled : Bool := false
  recordFilename : String := ""
deriving DecidableEq, Repr

/-- The outcome of spawning a child and running `Connect`, `Initialize`,
`ListTools` against it (the environment of the wrapper, made explicit). -/
structure SpawnOutcome where
  connectErr : Option String := none
  initErr : Option String := none
  listErr : Option String := none
  tools : List ToolInfo := []
deriving DecidableEq, Repr

/-- Go's `strings.ToLower`, modelled characterwise. -/
def strLower (s : String) : String := ⟨s.data.map Char.toLower⟩

/-- Does `pat` occur as a contiguous run inside `l`? -/
def subOccurs (pat : List Char) : List Char → Bool
  | [] => pat.isEmpty
  | c :: t => pat.isPrefixOf (c :: t) || subOccurs pat t

/-- Go's `strings.Contains`. -/
def strContains (s pat : String) : Bool := subOccurs pat.data s.data

/-- `integration.isConnectionError`: case-insensitive substring match of
the error text against the five connection-failure markers. -/
def isConnectionError (e : String) : Bool :=
  strContains (strLower e) "connection" ||
  strContains (strLower e) "broken pipe" ||
  strContains (strLower e) "eof" ||
  strContains (strLower e) "closed" ||
  strContains (strLower e) "timeout"

/-- Helper for `goFields`: split a character list around whitespace runs. -/
def fieldsAux : List Char → List Char → List (List Char)
  | [], cur => if cur.isEmpty then [] else [cur.reverse]
  | c :: t, cur =>
    if c.isWhitespace then
      if cur.isEmpty then fieldsAux t [] else cur.reverse :: fieldsAux t []
    else fieldsAux t (c :: cur)

/-- Go's `strings.Fields`. -/
def goFields (s : String) : List String := (fieldsAux s.data []).map List.asString

/-- The banner text built by `addRecordingMetadata` from the recording
filename and its absolute path. -/
def metadataText (filename absPath : String) : String :=
  "📹 Recording: " ++ filename ++ "\n   Full path: " ++ absPath ++
    "\n   Purpose: JSON-RPC message log for debugging and playback testing"

/-- `addRecordingMetadata`: when recording is enabled and a filename is
set, return a copy of the result with one extra text content item (the
recording banner) appended; otherwise return the result unchanged.
`filepath.Abs` is the ambient function `abs` (the Go fallback to the raw
filename on error is one possible value of it). -/
def addRecordingMetadata (s : WrapperState) (abs : String → String)
    (result : CallToolResult) : CallToolResult :=
  if s.recordEnabled then
    if s.recordFilename = "" then result
    else
      ⟨result.content ++ [metadataText s.recordFilename (abs s.recordFilename)],
        result.isError⟩
  else result

/-- The client reference a proxy handler copies under the read lock: the
current client of the upstream when the record exists and is connected. -/
def resolveClient (s : WrapperState) (serverName : String) : Option Nat :=
  match alookup s.dynamicServers serverName with
  | some info => if info.isConnected then info.clientId else none
  | none => none

/-- The in-place record mutation `serverInfo.IsConnected = false;
serverInfo.ErrorMessage = err` performed under the write lock when a
proxied call hits a connection error. -/
def markDisconnected (s : WrapperState) (serverName : String)
    (info : DynamicServerInfo) (e : String) : WrapperState :=
  let info1 : DynamicServerInfo :=
    { info with isConnected := false, errorMessage := e }
  { s with dynamicServers := upsert s.dynamicServers serverName info1 }

/-- The post-`CallTool` processing of the dynamic proxy handler
(`dynamic_wrapper.go:812-858`): classify a returned error — marking the
upstream disconnected on connection errors — or flatten a successful
result into a single text item. -/
def dispatchCallOutcome (s : WrapperState) (serverName : String)
    (info : DynamicServerInfo) :
    Except String CallToolResult → CallToolResult × WrapperState
  | .error e =>
    if isConnectionError e then
      (mkError ("Server '" ++ serverName ++ "' connection failed: " ++ e ++
          "\nUse server_reconnect to restore connection."),
        markDisconnected s serverName info e)
    else
      (mkError ("[" ++ serverName ++ "] " ++ e), s)
  | .ok r =>
    if r.isError then
      (match r.content with
        | c :: _ => mkError c
        | [] => mkError "Tool execution failed", s)
    else
      (match r.content with
        | [] => mkText "Tool executed successfully"
        | cs => mkText (String.intercalate "\n" cs), s)

/-- The body of the closure made by `createDynamicProxyHandler` for the
upstream `serverName` and tool `originalToolName` (before recording
metadata).  The closure captures only the two names; each invocation
resolves the current record from the wrapper state and calls `CallTool`
(`callTool c` is what `CallTool` on client `c` returns for the ambient
request). -/
def proxyHandlerCore (serverName originalToolName : String) (s : WrapperState)
    (callTool : Nat → Except String CallToolResult) :
    CallToolResult × WrapperState :=
  match alookup s.dynamicServers serverName with
  | none => (mkError ("Server '" ++ serverName ++ "' not found"), s)
  | some info =>
    match (if info.isConnected then info.clientId else none) with
    | none =>
      (mkError ("Server '" ++ serverName ++ "' is disconnected" ++
          (if info.errorMessage = "" then "" else ": " ++ info.errorMessage) ++
          "\nUse server_reconnect to restore connection."), s)
    | some c => dispatchCallOutcome s serverName info (callTool c)

/-- `createDynamicProxyHandler`'s closure, with the recording banner
applied to the returned result (every Go return site passes through
`addRecordingMetadata`). -/
def proxyHandler (serverName originalToolName : String) (s : WrapperState)
    (abs : String → String) (callTool : Nat → Except String CallToolResult) :
    CallToolResult × WrapperState :=
  (addRecordingMetadata s abs
      (proxyHandlerCore serverName originalToolName s callTool).1,
    (proxyHandlerCore serverName originalToolName s callTool).2)

/-- `handleServerDisconnect` (before recording metadata). -/
def handleServerDisconnectCore (s : WrapperState) (nameArg : Option String) :
    CallToolResult × WrapperState :=
  match nameArg with
  | none => (mkError "name is required", s)
  | some name =>
    match alookup s.dynamicServers name with
    | none => (mkError ("Server '" ++ name ++ "' not found"), s)
    | some info =>
      if info.isConnected then
        let s1 := match info.clientId with
          | some c =>
            { s with closedClients := s.closedClients ++ [c],
                     proxyClients := s.proxyClients.filter (fun p => ¬ p.1 = name) }
          | none => s
        let info1 : DynamicServerInfo :=
          { info with isConnected := false,
                      errorMessage := "Server disconnected by user",
                      clientId := none }
        let s2 := { s1 with dynamicServers := upsert s1.dynamicServers name info1 }
        (mkText ("Disconnected server '" ++ name ++
          "'. Tools remain registered but will return errors.\\nUse server_reconnect to restore with new binary/command."),
          s2)
      else
        (mkText ("Server '" ++ name ++ "' is already disconnected"), s)

/-- `handleServerDisconnect` with the recording banner applied. -/
def handleServerDisconnect (s : WrapperState) (nameArg : Option String)
    (abs : String → String) : CallToolResult × WrapperState :=
  (addRecordingMetadata s abs (handleServerDisconnectCore s nameArg).1,
    (handleServerDisconnectCore s nameArg).2)

/-- The spawn-and-handshake tail shared by the two `handleServerReconnect`
branches (`dynamic_wrapper.go:646-764`): create a client, `Connect`,
`Initialize`, `ListTools`; on failure leave the record disconnected with
an updated error message (closing the new client except on `Connect`
failure); on success update the record, the proxy client list and the
registry, then mark connected. -/
def reconnectSpawn (s : WrapperState) (name : String)
    (info : DynamicServerInfo) (newCfg : ServerConfig) (o : SpawnOutcome)
    (newCmd : Bool) : CallToolResult × WrapperState :=
  let cid := s.nextClientId
  let s0 := { s with nextClientId := s.nextClientId + 1 }
  match o.connectErr with
  | some e =>
    let info1 : DynamicServerInfo :=
      { info with isConnected := false,
                  errorMessage := "Failed to connect: " ++ e, cfg := newCfg }
    (mkError ("Failed to connect: " ++ e),
      { s0 with dynamicServers := upsert s0.dynamicServers name info1 })
  | none =>
  match o.initErr with
  | some e =>
    let info1 : DynamicServerInfo :=
      { info with isConnected := false,
                  errorMessage := "Failed to initialize: " ++ e, cfg := newCfg }
    (mkError ("Failed to initialize: " ++ e),
      { s0 with closedClients := s0.closedClients ++ [cid],
                dynamicServers := upsert s0.dynamicServers name info1 })
  | none =>
  match o.listErr with
  | some e =>
    let info1 : DynamicServerInfo :=
      { info with isConnected := false,
                  errorMessage := "Failed to list tools: " ++ e, cfg := newCfg }
    (mkError ("Failed to list tools: " ++ e),
      { s0 with closedClients := s0.closedClients ++ [cid],
                dynamicServers := upsert s0.dynamicServers name info1 })
  | none =>
    let pc := if s0.proxyClients.any (fun p => p.1 = name) then
        s0.proxyClients.map (fun p => if p.1 = name then (name, cid) else p)
      else s0.proxyClients ++ [(name, cid)]
    let reg := o.tools.foldl (fun r t =>
        if info.tools.contains (name ++ "_" ++ t.name) then
          upsert r (name ++ "_" ++ t.name) cid
        else r) s0.registry
    let info2 := { info with clientId := some cid, cfg := newCfg,
                             errorMessage := "", isConnected := true }
    (mkText (if newCmd then
        "Reconnected server '" ++ name ++ "' with NEW command: " ++
          newCfg.command ++ " " ++ String.intercalate " " newCfg.args ++
          "\nServer now connected and tools updated."
      else
        "Reconnected server '" ++ name ++
          "' using STORED configuration\nServer now connected and tools updated."),
      { s0 with dynamicServers := upsert s0.dynamicServers name info2,
                proxyClients := pc,
                registry := reg })

/-- `handleServerReconnect` (before recording metadata). -/
def handleServerReconnectCore (s : WrapperState)
    (nameArg commandArg : Option String) (o : SpawnOutcome) :
    CallToolResult × WrapperState :=
  match nameArg with
  | none => (mkError "name is required", s)
  | some name =>
    let commandStr := match commandArg with | some c => c | none => ""
    match alookup s.dynamicServers name with
    | none => (mkError ("Server '" ++ name ++ "' not found"), s)
    | some info =>
      if info.isConnected then
        (mkError ("Server '" ++ name ++
          "' is still connected. Use server_disconnect first."), s)
      else
        if commandStr = "" then
          if info.cfg.command = "" then
            (mkError "Stored config has no command. Please provide command parameter.",
              s)
          else reconnectSpawn s name info info.cfg o false
        else
          match goFields commandStr with
          | [] => (mkError "Invalid command", s)
          | cmd :: rest =>
            reconnectSpawn s name info
              { name := name, pfx := info.cfg.pfx, transport := "stdio",
                command := cmd, args := rest, timeout := "30s" } o true

/-- `handleServerReconnect` with the recording banner applied. -/
def handleServerReconnect (s : WrapperState)
    (nameArg commandArg : Option String) (o : SpawnOutcome)
    (abs : String → String) : CallToolResult × WrapperState :=
  (addRecordingMetadata s abs (handleServerReconnectCore s nameArg commandArg o).1,
    (handleServerReconnectCore s nameArg commandArg o).2)

/-- `handleServerAdd` (before recording metadata). -/
def handleServerAddCore (s : WrapperState)
    (nameArg commandArg : Option String) (o : SpawnOutcome) :
    CallToolResult × WrapperState :=
  match nameArg with
  | none => (mkError "name is required", s)
  | some name =>
  match commandArg with
  | none => (mkError "command is required", s)
  | some command =>
    if (alookup s.dynamicServers name).isSome then
      (mkError ("Server '" ++ name ++ "' already exists"), s)
    else
      match goFields command with
      | [] => (mkError "Invalid command", s)
      | cmd :: rest =>
        let serverConfig : ServerConfig :=
          { name := name, pfx := name, transport := "stdio",
            command := cmd, args := rest, timeout := "30s" }
        let cid := s.nextClientId
        let s0 := { s with nextClientId := s.nextClientId + 1 }
        match o.connectErr with
        | some e => (mkError ("Failed to connect: " ++ e), s0)
        | none =>
        match o.initErr with
        | some e =>
          (mkError ("Failed to initialize: " ++ e),
            { s0 with closedClients := s0.closedClients ++ [cid] })
        | none =>
        match o.listErr with
        | some e =>
          (mkError ("Failed to list tools: " ++ e),
            { s0 with closedClients := s0.closedClients ++ [cid] })
        | none =>
          let prefixedTools := o.tools.map (fun t => name ++ "_" ++ t.name)
          let reg := o.tools.foldl
            (fun r t => upsert r (name ++ "_" ++ t.name) cid) s0.registry
          let info : DynamicServerInfo :=
            { name := name, clientId := some cid, tools := prefixedTools,
              cfg := serverConfig, isConnected := true, errorMessage := "" }
          (mkText ("Added server '" ++ name ++ "' with command: " ++ cmd ++ " " ++
              String.intercalate " " rest ++ "\nRegistered " ++
              toString prefixedTools.length ++ " tools successfully."),
            { s0 with dynamicServers := upsert s0.dynamicServers name info,
                      registry := reg,
                      proxyClients := s0.proxyClients ++ [(name, cid)] })

/-- `handleServerAdd` with the recording banner applied. -/
def handleServerAdd (s : WrapperState) (nameArg commandArg : Option String)
    (o : SpawnOutcome) (abs : String → String) : CallToolResult × WrapperState :=
  (addRecordingMetadata s abs (handleServerAddCore s nameArg commandArg o).1,
    (handleServerAddCore s nameArg commandArg o).2)

/-! ### Helper lemmas about the recording banner and substring search -/

theorem addMeta_isError (s : WrapperState) (abs : String → String)
    (r : CallToolResult) :
    (addRecordingMetadata s abs r).isError = r.isError := by
  unfold addRecordingMetadata
  split
  · split <;> rfl
  · rfl

theorem addMeta_head (s : WrapperState) (abs : String → String)
    (m : String) (cs : List String) (e : Bool) :
    (addRecordingMetadata s abs ⟨m :: cs, e⟩).content.head? = some m := by
  unfold addRecordingMetadata
  split
  · split <;> rfl
  · rfl

theorem subOccurs_nil (l : List Char) : subOccurs [] l = true := by
  cases l <;> simp [subOccurs, List.isPrefixOf, List.isEmpty]

theorem subOccurs_append_left {pat l : List Char} (h : subOccurs pat l = true)
    (x : List Char) : subOccurs pat (x ++ l) = true := by
  induction x with
  | nil => simpa using h
  | cons c t ih => simp [subOccurs, ih]

theorem isPrefixOf_self_append (l r : List Char) : l.isPrefixOf (l ++ r) = true := by
  induction l with
  | nil => simp [List.isPrefixOf]
  | cons c t ih => simp [List.isPrefixOf, ih]

theorem subOccurs_self_append (pat rest : List Char) :
    subOccurs pat (pat ++ rest) = true := by
  cases pat with
  | nil => exact subOccurs_nil rest
  | cons p ps => simp [subOccurs, isPrefixOf_self_append]

theorem strContains_append_right (x t pat : String)
    (h : strContains t pat = true) : strContains (x ++ t) pat = true := by
  unfold strContains at h ⊢
  rw [String.data_append]
  exact subOccurs_append_left h x.data

theorem strContains_sandwich (x pat r : String) :
    strContains ((x ++ pat) ++ r) pat = true := by
  unfold strContains
  rw [String.data_append, String.data_append, List.append_assoc]
  exact subOccurs_append_left (subOccurs_self_append pat.data r.data) x.data

/-- C7: when `CallTool` on a connected upstream returns an error during a
proxied call, the handler returns a tool-result error (it never raises):
a connection-class error (case-insensitive substring match against
"connection", "broken pipe", "eof", "closed", "timeout") marks the record
disconnected with the error text as its last error and the message tells
the operator to use `server_reconnect`; any other error leaves the state
unchanged and is returned prefixed by the upstream name in brackets. -/
theorem proxyHandler_error_classification (s : WrapperState) (n t : String)
    (info : DynamicServerInfo) (c : Nat) (abs : String → String) (e : String)
    (f : Nat → Except String CallToolResult)
    (h1 : alookup s.dynamicServers n = some info)
    (h2 : info.isConnected = true)
    (h3 : info.clientId = some c)
    (h4 : f c = .error e) :
    (proxyHandler n t s abs f).1.isError = true ∧
    (isConnectionError e = true →
      (proxyHandler n t s abs f).1.content.head? =
        some ("Server '" ++ n ++ "' connection failed: " ++ e ++
          "\nUse server_reconnect to restore connection.") ∧
      strContains ("Server '" ++ n ++ "' connection failed: " ++ e ++
          "\nUse server_reconnect to restore connection.") "server_reconnect" = true ∧
      (proxyHandler n t s abs f).2 = markDisconnected s n info e) ∧
    (isConnectionError e = false →
      (proxyHandler n t s abs f).1.content.head? = some ("[" ++ n ++ "] " ++ e) ∧
      (proxyHandler n t s abs f).2 = s) := by
  have hcore : proxyHandlerCore n t s f = dispatchCallOutcome s n info (.error e) := by
    simp [proxyHandlerCore, h1, h2, h3, h4]
  refine ⟨?_, ?_, ?_⟩
  · show (addRecordingMetadata s abs (proxyHandlerCore n t s f).1).isError = true
    rw [addMeta_isError, hcore]
    simp only [dispatchCallOutcome]
    split <;> rfl
  · intro hconn
    have hd : dispatchCallOutcome s n info (.error e) =
        (mkError ("Server '" ++ n ++ "' connection failed: " ++ e ++
          "\nUse server_reconnect to restore connection."),
         markDisconnected s n info e) := by
      simp [dispatchCallOutcome, hconn]
    refine ⟨?_, ?_, ?_⟩
    · show (addRecordingMetadata s abs (proxyHandlerCore n t s f).1).content.head? = _
      rw [hcore, hd]
      exact addMeta_head s abs _ [] true
    · show strContains ((("Server '" ++ n ++ "' connection failed: ") ++ e) ++
        "\nUse server_reconnect to restore connection.") "server_reconnect" = true
      exact strContains_append_right _ _ _ (by decide)
    · show (proxyHandlerCore n t s f).2 = _
      rw [hcore, hd]
  · intro hconn
    have hd : dispatchCallOutcome s n info (.error e) =
        (mkError ("[" ++ n ++ "] " ++ e), s) := by
      simp [dispatchCallOutcome, hconn]
    refine ⟨?_, ?_⟩
    · show (addRecordingMetadata s abs (proxyHandlerCore n t s f).1).content.head? = _
      rw [hcore, hd]
      exact addMeta_head s abs _ [] true
    · show (proxyHandlerCore n t s f).2 = s
      rw [hcore, hd]

/-- A server config fixture for wrapper-state witnesses. -/
def wFsCfg : ServerConfig :=
  { name := "fs", pfx := "fs", transport := "stdio", command := "fsbin",
    timeout := "30s" }

/-- An upstream record fixture: server `fs`, connected via client 0. -/
def wFsInfo : DynamicServerInfo :=
  { name := "fs", clientId := some 0, tools := ["fs_read"], cfg := wFsCfg,
    isConnected := true }

/-- A wrapper state fixture holding the single upstream `fs`. -/
def wS0 : WrapperState :=
  { dynamicServers := [("fs", wFsInfo)], registry := [("fs_read", 0)],
    proxyClients := [("fs", 0)], nextClientId := 1 }

/-- Witness for C7: a `broken pipe` error from `CallTool` yields a
tool-result error and marks the upstream disconnected. -/
theorem proxyHandler_error_classification_witness :
    (proxyHandler "fs" "read" wS0 (fun x => x)
        (fun _ => .error "broken pipe")).1.isError = true ∧
    (proxyHandler "fs" "read" wS0 (fun x => x)
        (fun _ => .error "broken pipe")).2 =
      markDisconnected wS0 "fs" wFsInfo "broken pipe" :=
  ⟨(proxyHandler_error_classification wS0 "fs" "read" wFsInfo 0 (fun x => x)
      "broken pipe" (fun _ => .error "broken pipe") rfl rfl rfl rfl).1,
    ((proxyHandler_error_classification wS0 "fs" "read" wFsInfo 0 (fun x => x)
      "broken pipe" (fun _ => .error "broken pipe") rfl rfl rfl rfl).2.1
      (by decide)).2.2⟩

/-- C8: `server_disconnect` on a registered, connected upstream closes and
nulls the client, marks the record disconnected with
`"Server disconnected by user"`, and returns a success result; a second
call is a success noop leaving the state unchanged; an unknown name gets
an error result without state change. -/
theorem serverDisconnect_idempotent (s : WrapperState) (n : String)
    (info : DynamicServerInfo) (c : Nat) (abs : String → String)
    (h1 : alookup s.dynamicServers n = some info)
    (h2 : info.isConnected = true)
    (h3 : info.clientId = some c) :
    (handleServerDisconnect s (some n) abs).1.isError = false ∧
    (handleServerDisconnect s (some n) abs).1.content.head? =
      some ("Disconnected server '" ++ n ++
        "'. Tools remain registered but will return errors.\\nUse server_reconnect to restore with new binary/command.") ∧
    c ∈ (handleServerDisconnect s (some n) abs).2.closedClients ∧
    alookup (handleServerDisconnect s (some n) abs).2.dynamicServers n =
      some { info with isConnected := false,
                       errorMessage := "Server disconnected by user",
                       clientId := none } ∧
    (handleServerDisconnect (handleServerDisconnect s (some n) abs).2 (some n)
        abs).1.isError = false ∧
    (handleServerDisconnect (handleServerDisconnect s (some n) abs).2 (some n)
        abs).1.content.head? =
      some ("Server '" ++ n ++ "' is already disconnected") ∧
    (handleServerDisconnect (handleServerDisconnect s (some n) abs).2 (some n)
        abs).2 = (handleServerDisconnect s (some n) abs).2 ∧
    (∀ m, alookup s.dynamicServers m = none →
      (handleServerDisconnect s (some m) abs).1.isError = true ∧
      (handleServerDisconnect s (some m) abs).2 = s) := by
  have hc1 : handleServerDisconnectCore s (some n) =
      (mkText ("Disconnected server '" ++ n ++
        "'. Tools remain registered but will return errors.\\nUse server_reconnect to restore with new binary/command."),
        { s with closedClients := s.closedClients ++ [c],
                 proxyClients := s.proxyClients.filter (fun p => ¬ p.1 = n),
                 dynamicServers := upsert s.dynamicServers n
                   { info with isConnected := false,
                               errorMessage := "Server disconnected by user",
                               clientId := none } }) := by
    simp [handleServerDisconnectCore, h1, h2, h3]
  have hs1 : (handleServerDisconnect s (some n) abs).2 =
      { s with closedClients := s.closedClients ++ [c],
               proxyClients := s.proxyClients.filter (fun p => ¬ p.1 = n),
               dynamicServers := upsert s.dynamicServers n
                 { info with isConnected := false,
                             errorMessage := "Server disconnected by user",
                             clientId := none } } := by
    show (handleServerDisconnectCore s (some n)).2 = _
    rw [hc1]
  have hlook2 : alookup (handleServerDisconnect s (some n) abs).2.dynamicServers n =
      some { info with isConnected := false,
                       errorMessage := "Server disconnected by user",
                       clientId := none } := by
    rw [hs1]
    show alookup (upsert s.dynamicServers n _) n = _
    rw [alookup_upsert]
    simp
  have hc2 : handleServerDisconnectCore (handleServerDisconnect s (some n) abs).2
      (some n) =
      (mkText ("Server '" ++ n ++ "' is already disconnected"),
        (handleServerDisconnect s (some n) abs).2) := by
    simp [handleServerDisconnectCore, hlook2]
  refine ⟨?_, ?_, ?_, hlook2, ?_, ?_, ?_, ?_⟩
  · show (addRecordingMetadata s abs (handleServerDisconnectCore s (some n)).1).isError = false
    rw [addMeta_isError, hc1]
    rfl
  · show (addRecordingMetadata s abs (handleServerDisconnectCore s (some n)).1).content.head? = _
    rw [hc1]
    exact addMeta_head s abs _ [] false
  · rw [hs1]
    simp
  · show (addRecordingMetadata _ abs (handleServerDisconnectCore _ (some n)).1).isError = false
    rw [addMeta_isError, hc2]
    rfl
  · show (addRecordingMetadata _ abs (handleServerDisconnectCore _ (some n)).1).content.head? = _
    rw [hc2]
    exact addMeta_head _ abs _ [] false
  · show (handleServerDisconnectCore _ (some n)).2 = _
    rw [hc2]
  · intro m hm
    have hcm : handleServerDisconnectCore s (some m) =
        (mkError ("Server '" ++ m ++ "' not found"), s) := by
      simp [handleServerDisconnectCore, hm]
    constructor
    · show (addRecordingMetadata s abs (handleServerDisconnectCore s (some m)).1).isError = true
      rw [addMeta_isError, hcm]
      rfl
    · show (handleServerDisconnectCore s (some m)).2 = s
      rw [hcm]

theorem alookup_upsert_self {α : Type} (m : List (String × α)) (k : String)
    (v : α) : alookup (upsert m k v) k = some v := by
  rw [alookup_upsert]
  simp

/-- Witness for C8 at the `fs` fixture. -/
theorem serverDisconnect_idempotent_witness :
    (handleServerDisconnect wS0 (some "fs") (fun x => x)).1.isError = false ∧
    (handleServerDisconnect (handleServerDisconnect wS0 (some "fs") (fun x => x)).2
        (some "fs") (fun x => x)).2 =
      (handleServerDisconnect wS0 (some "fs") (fun x => x)).2 :=
  ⟨(serverDisconnect_idempotent wS0 "fs" wFsInfo 0 (fun x => x) rfl rfl rfl).1,
    (serverDisconnect_idempotent wS0 "fs" wFsInfo 0 (fun x => x)
      rfl rfl rfl).2.2.2.2.2.2.1⟩

/-- The record state written by `server_disconnect`. -/
def disconnectedInfo (info : DynamicServerInfo) : DynamicServerInfo :=
  { info with isConnected := false,
              errorMessage := "Server disconnected by user",
              clientId := none }

/-- The wrapper state after a successful `server_disconnect` of `n` whose
record was connected via client `c`. -/
def postDisconnectState (s : WrapperState) (n : String)
    (info : DynamicServerInfo) (c : Nat) : WrapperState :=
  { s with closedClients := s.closedClients ++ [c],
           proxyClients := s.proxyClients.filter (fun p => ¬ p.1 = n),
           dynamicServers := upsert s.dynamicServers n (disconnectedInfo info) }

/-- The record state written by a successful `server_reconnect` that kept
the stored config: the fresh client, connected, error cleared. -/
def reconnectedInfo (info : DynamicServerInfo) (cid : Nat) : DynamicServerInfo :=
  { info with clientId := some cid, isConnected := true, errorMessage := "" }

/-- C1: after `server_disconnect(n)` followed by a successful
`server_reconnect(n)` with no command argument, the record holds the
client created by the reconnect (a fresh identity, distinct from the
pre-disconnect client), and the proxy handler — which captured only the
server and tool names — resolves that client from the table on every
invocation: its behaviour depends on `CallTool` only at the new client,
never at the old one. -/
theorem proxyHandler_uses_reconnected_client (s : WrapperState) (n t : String)
    (info : DynamicServerInfo) (c0 : Nat) (o : SpawnOutcome)
    (abs : String → String)
    (h1 : alookup s.dynamicServers n = some info)
    (h2 : info.isConnected = true)
    (h3 : info.clientId = some c0)
    (h4 : c0 < s.nextClientId)
    (h5 : ¬ info.cfg.command = "")
    (h6 : o.connectErr = none) (h7 : o.initErr = none) (h8 : o.listErr = none) :
    ¬ s.nextClientId = c0 ∧
    resolveClient
      (handleServerReconnect (handleServerDisconnect s (some n) abs).2
        (some n) none o abs).2 n = some s.nextClientId ∧
    ∃ info2,
      alookup (handleServerReconnect (handleServerDisconnect s (some n) abs).2
          (some n) none o abs).2.dynamicServers n = some info2 ∧
      info2.clientId = some s.nextClientId ∧
      info2.isConnected = true ∧
      ∀ f, proxyHandler n t
          (handleServerReconnect (handleServerDisconnect s (some n) abs).2
            (some n) none o abs).2 abs f =
        (addRecordingMetadata
            (handleServerReconnect (handleServerDisconnect s (some n) abs).2
              (some n) none o abs).2 abs
            (dispatchCallOutcome
              (handleServerReconnect (handleServerDisconnect s (some n) abs).2
                (some n) none o abs).2 n info2 (f s.nextClientId)).1,
          (dispatchCallOutcome
            (handleServerReconnect (handleServerDisconnect s (some n) abs).2
              (some n) none o abs).2 n info2 (f s.nextClientId)).2) := by
  have hne : ¬ s.nextClientId = c0 := by
    intro he
    rw [he] at h4
    exact lt_irrefl c0 h4
  have hc1 : handleServerDisconnectCore s (some n) =
      (mkText ("Disconnected server '" ++ n ++
        "'. Tools remain registered but will return errors.\\nUse server_reconnect to restore with new binary/command."),
        postDisconnectState s n info c0) := by
    simp [handleServerDisconnectCore, h1, h2, h3, postDisconnectState,
      disconnectedInfo]
  have hs1 : (handleServerDisconnect s (some n) abs).2 =
      postDisconnectState s n info c0 := by
    show (handleServerDisconnectCore s (some n)).2 = _
    rw [hc1]
  rw [hs1]
  have hl1 : alookup (postDisconnectState s n info c0).dynamicServers n =
      some (disconnectedInfo info) := by
    show alookup (upsert s.dynamicServers n (disconnectedInfo info)) n = _
    exact alookup_upsert_self _ _ _
  have hrc : handleServerReconnectCore (postDisconnectState s n info c0)
      (some n) none o =
      reconnectSpawn (postDisconnectState s n info c0) n
        (disconnectedInfo info) (disconnectedInfo info).cfg o false := by
    simp [handleServerReconnectCore, hl1, disconnectedInfo, h5]
  have hd2 : (handleServerReconnectCore (postDisconnectState s n info c0)
      (some n) none o).2.dynamicServers =
      upsert (postDisconnectState s n info c0).dynamicServers n
        (reconnectedInfo info s.nextClientId) := by
    rw [hrc]
    simp [reconnectSpawn, h6, h7, h8, reconnectedInfo, disconnectedInfo,
      postDisconnectState]
  have hlookup2 : alookup (handleServerReconnect
      (postDisconnectState s n info c0) (some n) none o abs).2.dynamicServers n =
      some (reconnectedInfo info s.nextClientId) := by
    show alookup (handleServerReconnectCore _ (some n) none o).2.dynamicServers n = _
    rw [hd2]
    exact alookup_upsert_self _ _ _
  refine ⟨hne, ?_, ?_⟩
  · simp [resolveClient, hlookup2, reconnectedInfo]
  · refine ⟨reconnectedInfo info s.nextClientId, hlookup2, rfl, rfl, ?_⟩
    intro f
    have hph : proxyHandlerCore n t (handleServerReconnect
        (postDisconnectState s n info c0) (some n) none o abs).2 f =
        dispatchCallOutcome (handleServerReconnect
          (postDisconnectState s n info c0) (some n) none o abs).2 n
          (reconnectedInfo info s.nextClientId) (f s.nextClientId) := by
      simp [proxyHandlerCore, hlookup2, reconnectedInfo]
    show (addRecordingMetadata _ abs (proxyHandlerCore n t _ f).1,
      (proxyHandlerCore n t _ f).2) = _
    rw [hph]

/-- Witness for C1 at the `fs` fixture. -/
theorem proxyHandler_uses_reconnected_client_witness :
    ¬ wS0.nextClientId = 0 ∧
    resolveClient
      (handleServerReconnect (handleServerDisconnect wS0 (some "fs") (fun x => x)).2
        (some "fs") none { tools := [⟨"read", ""⟩] } (fun x => x)).2 "fs" =
      some wS0.nextClientId :=
  ⟨(proxyHandler_uses_reconnected_client wS0 "fs" "read" wFsInfo 0
      { tools := [⟨"read", ""⟩] } (fun x => x) rfl rfl rfl (by decide) (by decide)
      rfl rfl rfl).1,
    (proxyHandler_uses_reconnected_client wS0 "fs" "read" wFsInfo 0
      { tools := [⟨"read", ""⟩] } (fun x => x) rfl rfl rfl (by decide) (by decide)
      rfl rfl rfl).2.1⟩

/-- A wrapper state with recording enabled. -/
def c2State : WrapperState := { recordEnabled := true, recordFilename := "r.jsonl" }

/-- C2 counterexample: with recording enabled, an error response
(`IsError = true`) returned by a proxy handler DOES carry the appended
recording banner — the claim says error responses carry no such item. -/
theorem recordingMetadata_on_error_counterexample :
    (proxyHandler "a" "t" c2State (fun x => x) (fun _ => .error "x")).1.isError =
      true ∧
    (proxyHandler "a" "t" c2State (fun x => x) (fun _ => .error "x")).1.content =
      ["Server 'a' not found", metadataText "r.jsonl" "r.jsonl"] := by
  exact ⟨by decide, by decide⟩

/-- C2 amended: while recording is enabled (and a filename is set), EVERY
tool-call response — successful or error alike — gains exactly one
additional content item, appended at the end, whose text contains the
absolute path of the recording file; while recording is disabled results
pass through unchanged; and the proxy handler routes every response
through this function. -/
theorem recordingMetadata_banner (s : WrapperState) (abs : String → String)
    (r : CallToolResult) (n t : String)
    (f : Nat → Except String CallToolResult) :
    (s.recordEnabled = true → ¬ s.recordFilename = "" →
      addRecordingMetadata s abs r =
        ⟨r.content ++ [metadataText s.recordFilename (abs s.recordFilename)],
          r.isError⟩ ∧
      strContains (metadataText s.recordFilename (abs s.recordFilename))
        (abs s.recordFilename) = true) ∧
    (s.recordEnabled = false → addRecordingMetadata s abs r = r) ∧
    (proxyHandler n t s abs f).1 =
      addRecordingMetadata s abs (proxyHandlerCore n t s f).1 := by
  refine ⟨?_, ?_, rfl⟩
  · intro he hf
    constructor
    · unfold addRecordingMetadata
      rw [if_pos he, if_neg hf]
    · exact strContains_sandwich
        ("📹 Recording: " ++ s.recordFilename ++ "\n   Full path: ")
        (abs s.recordFilename)
        "\n   Purpose: JSON-RPC message log for debugging and playback testing"
  · intro he
    simp [addRecordingMetadata, he]

/-- Witness for the amended C2 theorem. -/
theorem recordingMetadata_banner_witness :
    addRecordingMetadata c2State (fun x => x) (mkError "x") =
      ⟨["x"] ++ [metadataText "r.jsonl" "r.jsonl"], true⟩ ∧
    strContains (metadataText "r.jsonl" "r.jsonl") "r.jsonl" = true :=
  (recordingMetadata_banner c2State (fun x => x) (mkError "x") "a" "t"
    (fun _ => .ok ⟨[], false⟩)).1 rfl (by decide)

/-- C9 counterexample: on a `Connect` failure during `server_add`, the
code returns an error result without closing the just-created client
(`closedClients` stays empty) — the claim requires the partially-created
client to be closed on any failure, connect included. -/
theorem serverAdd_connectFailure_counterexample :
    (handleServerAdd {} (some "a") (some "cmd") { connectErr := some "boom" }
        (fun x => x)).1.isError = true ∧
    (handleServerAdd {} (some "a") (some "cmd") { connectErr := some "boom" }
        (fun x => x)).1.content.head? = some "Failed to connect: boom" ∧
    (handleServerAdd {} (some "a") (some "cmd") { connectErr := some "boom" }
        (fun x => x)).2.closedClients = [] := by
  exact ⟨by decide, by decide, by decide⟩

/-- C9 amended: `server_add` with a known name returns the error
`Server '<name>' already exists` with the state untouched (no client is
even created); on a failure of `Connect`, `Initialize` or `ListTools`, an
error result is returned and the upstream table and the registry are left
unchanged — the partially-created client is closed on `Initialize` and
`ListTools` failures but NOT on `Connect` failures. -/
theorem serverAdd_failure_behaviour (s : WrapperState) (n cmdStr : String)
    (o : SpawnOutcome) (abs : String → String) :
    (∀ info, alookup s.dynamicServers n = some info →
      (handleServerAdd s (some n) (some cmdStr) o abs).1.isError = true ∧
      (handleServerAdd s (some n) (some cmdStr) o abs).1.content.head? =
        some ("Server '" ++ n ++ "' already exists") ∧
      (handleServerAdd s (some n) (some cmdStr) o abs).2 = s) ∧
    (alookup s.dynamicServers n = none →
      ∀ cmd rest, goFields cmdStr = cmd :: rest →
      (∀ e, o.connectErr = some e →
        (handleServerAdd s (some n) (some cmdStr) o abs).1.isError = true ∧
        (handleServerAdd s (some n) (some cmdStr) o abs).1.content.head? =
          some ("Failed to connect: " ++ e) ∧
        (handleServerAdd s (some n) (some cmdStr) o abs).2.dynamicServers =
          s.dynamicServers ∧
        (handleServerAdd s (some n) (some cmdStr) o abs).2.registry = s.registry ∧
        (handleServerAdd s (some n) (some cmdStr) o abs).2.closedClients =
          s.closedClients) ∧
      (o.connectErr = none → ∀ e, o.initErr = some e →
        (handleServerAdd s (some n) (some cmdStr) o abs).1.isError = true ∧
        (handleServerAdd s (some n) (some cmdStr) o abs).1.content.head? =
          some ("Failed to initialize: " ++ e) ∧
        (handleServerAdd s (some n) (some cmdStr) o abs).2.dynamicServers =
          s.dynamicServers ∧
        (handleServerAdd s (some n) (some cmdStr) o abs).2.registry = s.registry ∧
        (handleServerAdd s (some n) (some cmdStr) o abs).2.closedClients =
          s.closedClients ++ [s.nextClientId]) ∧
      (o.connectErr = none → o.initErr = none → ∀ e, o.listErr = some e →
        (handleServerAdd s (some n) (some cmdStr) o abs).1.isError = true ∧
        (handleServerAdd s (some n) (some cmdStr) o abs).1.content.head? =
          some ("Failed to list tools: " ++ e) ∧
        (handleServerAdd s (some n) (some cmdStr) o abs).2.dynamicServers =
          s.dynamicServers ∧
        (handleServerAdd s (some n) (some cmdStr) o abs).2.registry = s.registry ∧
        (handleServerAdd s (some n) (some cmdStr) o abs).2.closedClients =
          s.closedClients ++ [s.nextClientId])) := by
  constructor
  · intro info hinfo
    have hcore : handleServerAddCore s (some n) (some cmdStr) o =
        (mkError ("Server '" ++ n ++ "' already exists"), s) := by
      simp [handleServerAddCore, hinfo]
    refine ⟨?_, ?_, ?_⟩
    · show (addRecordingMetadata s abs (handleServerAddCore s (some n) (some cmdStr) o).1).isError = true
      rw [addMeta_isError, hcore]
      rfl
    · show (addRecordingMetadata s abs (handleServerAddCore s (some n) (some cmdStr) o).1).content.head? = _
      rw [hcore]
      exact addMeta_head s abs _ [] true
    · show (handleServerAddCore s (some n) (some cmdStr) o).2 = s
      rw [hcore]
  · intro hnone cmd rest hfields
    refine ⟨?_, ?_, ?_⟩
    · intro e he
      have hcore : handleServerAddCore s (some n) (some cmdStr) o =
          (mkError ("Failed to connect: " ++ e),
            { s with nextClientId := s.nextClientId + 1 }) := by
        simp [handleServerAddCore, hnone, hfields, he]
      refine ⟨?_, ?_, ?_, ?_, ?_⟩
      · show (addRecordingMetadata s abs (handleServerAddCore s (some n) (some cmdStr) o).1).isError = true
        rw [addMeta_isError, hcore]
        rfl
      · show (addRecordingMetadata s abs (handleServerAddCore s (some n) (some cmdStr) o).1).content.head? = _
        rw [hcore]
        exact addMeta_head s abs _ [] true
      · show (handleServerAddCore s (some n) (some cmdStr) o).2.dynamicServers = _
        rw [hcore]
      · show (handleServerAddCore s (some n) (some cmdStr) o).2.registry = _
        rw [hcore]
      · show (handleServerAddCore s (some n) (some cmdStr) o).2.closedClients = _
        rw [hcore]
    · intro hce e he
      have hcore : handleServerAddCore s (some n) (some cmdStr) o =
          (mkError ("Failed to initialize: " ++ e),
            { s with nextClientId := s.nextClientId + 1,
                     closedClients := s.closedClients ++ [s.nextClientId] }) := by
        simp [handleServerAddCore, hnone, hfields, hce, he]
      refine ⟨?_, ?_, ?_, ?_, ?_⟩
      · show (addRecordingMetadata s abs (handleServerAddCore s (some n) (some cmdStr) o).1).isError = true
        rw [addMeta_isError, hcore]
        rfl
      · show (addRecordingMetadata s abs (handleServerAddCore s (some n) (some cmdStr) o).1).content.head? = _
        rw [hcore]
        exact addMeta_head s abs _ [] true
      · show (handleServerAddCore s (some n) (some cmdStr) o).2.dynamicServers = _
        rw [hcore]
      · show (handleServerAddCore s (some n) (some cmdStr) o).2.registry = _
        rw [hcore]
      · show (handleServerAddCore s (some n) (some cmdStr) o).2.closedClients = _
        rw [hcore]
    · intro hce hie e he
      have hcore : handleServerAddCore s (some n) (some cmdStr) o =
          (mkError ("Failed to list tools: " ++ e),
            { s with nextClientId := s.nextClientId + 1,
                     closedClients := s.closedClients ++ [s.nextClientId] }) := by
        simp [handleServerAddCore, hnone, hfields, hce, hie, he]
      refine ⟨?_, ?_, ?_, ?_, ?_⟩
      · show (addRecordingMetadata s abs (handleServerAddCore s (some n) (some cmdStr) o).1).isError = true
        rw [addMeta_isError, hcore]
        rfl
      · show (addRecordingMetadata s abs (handleServerAddCore s (some n) (some cmdStr) o).1).content.head? = _
        rw [hcore]
        exact addMeta_head s abs _ [] true
      · show (handleServerAddCore s (some n) (some cmdStr) o).2.dynamicServers = _
        rw [hcore]
      · show (handleServerAddCore s (some n) (some cmdStr) o).2.registry = _
        rw [hcore]
      · show (handleServerAddCore s (some n) (some cmdStr) o).2.closedClients = _
        rw [hcore]

/-- Witness for the amended C9 theorem: duplicate-name rejection at the
`fs` fixture. -/
theorem serverAdd_failure_behaviour_witness :
    (handleServerAdd wS0 (some "fs") (some "x") {} (fun x => x)).1.isError =
      true ∧
    (handleServerAdd wS0 (some "fs") (some "x") {} (fun x => x)).2 = wS0 :=
  ⟨((serverAdd_failure_behaviour wS0 "fs" "x" {} (fun x => x)).1 wFsInfo rfl).1,
    ((serverAdd_failure_behaviour wS0 "fs" "x" {} (fun x => x)).1 wFsInfo
      rfl).2.2⟩

/-- Witness for C6 at a concrete config and parent environment. -/
theorem inheritMode_aliases_witness :
    BuildEnvironment { inherit := some { mode := .inheritNone } } none
        [("HOME", "/h")] false =
      BuildEnvironment { inherit := some { mode := .tier1 } } none
        [("HOME", "/h")] false :=
  (inheritMode_aliases {} {} none [("HOME", "/h")] false).1

end McpDebug
